import Mathlib

/-!
# Verification of the e-commerce analytics aggregation engine

Shallow embedding of the repository's data pipeline:

* `EcommerceModel.process_sales_data` (src/models/ecommerce_model.py) —
  column-name normalization, date-column conversion, total-value
  reconciliation against the 2.0 anomaly threshold, null-critical-row
  filtering;
* `AnaliseController.analisar_vendas_por_periodo / _categoria / _regiao`
  (src/controllers/analise_controller.py) — grouping, sums, counts,
  ticket averages, percentage-of-grand-total, quarter gating, weekday
  naming, region-column auto-detection;
* `ObterDadosEcommerce.gerar_dados_sinteticos`
  (src/models/obter_dados_ecommerce.py) — synthetic record generation;
* `PowerBIDashboard.criar_calendario_powerbi`
  (src/views/powerbi_dashboard.py) — the capped calendar table.

Modelling conventions: DataFrames are association lists from column
names to cell lists; machine floats are modelled by exact rationals
(`ℚ`), with Python's `round(x, 2)` modelled by rounding `100·x` to the
nearest integer; date/datetime cells carry (year, month, day); the
pseudo-random source is an explicit oracle argument; logging and file
I/O are dropped (they do not affect any returned value).
-/

namespace Ecom

/-- `round(x, 2)`: round to two decimal places.  Models Python's / polars'
2-decimal rounding on floats (ties, which floats almost never hit exactly,
are resolved here half-up via Mathlib's `round`). -/
def round2 (q : ℚ) : ℚ := (round (q * 100) : ℚ) / 100

/-- A DataFrame cell: a number, a string, a datetime (day number and
seconds-of-day), or null. -/
inductive CVal where
  | num (q : ℚ)
  | str (s : String)
  | dt (day : ℤ) (secs : ℕ)
  | null
deriving DecidableEq, Repr

/-- A DataFrame: ordered association list of (column name, cells).
Polars enforces that all columns have equal length (`WF` below). -/
abbrev DF := List (String × List CVal)

namespace DF

/-- Column names, in order. -/
def cols (df : DF) : List String := df.map (·.1)

/-- Cells of a named column (first match; `[]` when absent). -/
def getCol (df : DF) (n : String) : List CVal :=
  ((df.find? (fun c => c.1 = n)).map (·.2)).getD []

/-- `shape[0]`: number of rows (length of the first column, 0 if no
columns — polars reports 0 rows for a zero-column frame). -/
def nrows (df : DF) : ℕ :=
  match df with
  | [] => 0
  | c :: _ => c.2.length

/-- Rectangularity invariant maintained by polars. -/
def WF (df : DF) : Prop := ∀ c ∈ df, c.2.length = nrows df

instance : DecidablePred WF := fun df =>
  decidable_of_iff (∀ c ∈ df, c.2.length = nrows df) Iff.rfl

end DF

/-- One character of Python's `col.lower().replace(' ', '_')`:
`str.lower` is per-character (ASCII range relevant here, matching
`Char.toLower`), and `replace` with the single-character pattern `' '`
is the per-character substitution space → underscore. -/
def normChar (c : Char) : Char :=
  if c = ' ' then '_' else c.toLower

/-- `col.lower().replace(' ', '_')` from `process_sales_data` step 1. -/
def normalizeName (s : String) : String := ⟨s.data.map normChar⟩

/-- Per-character `str.lower()`. -/
def lowerStr (s : String) : String := ⟨s.data.map Char.toLower⟩

/-- Naive substring test on character lists (Python's `pat in s`). -/
def hasSub (s pat : List Char) : Bool :=
  match s with
  | [] => pat.isEmpty
  | _ :: t => pat.isPrefixOf s || hasSub t pat

/-- `'date' in col.lower() or 'time' in col.lower()` from
`process_sales_data` step 2. -/
def isDateColName (n : String) : Bool :=
  hasSub (lowerStr n).data "date".data || hasSub (lowerStr n).data "time".data

/-- Insert into a sorted list according to the boolean comparison. -/
def insertBy {α : Type} (le : α → α → Bool) (a : α) : List α → List α
  | [] => [a]
  | b :: bs => if le a b then a :: b :: bs else b :: insertBy le a bs

/-- Insertion sort; models polars `DataFrame.sort` (all claims about
order are up to the comparison, never up to tie order). -/
def sortBy {α : Type} (le : α → α → Bool) : List α → List α
  | [] => []
  | a :: as => insertBy le a (sortBy le as)

/-- Numeric content of a cell. -/
def asNum : CVal → Option ℚ
  | .num q => some q
  | _ => none

/-- Sum of the numeric cells of a column (polars `sum` skips nulls). -/
def numSum (l : List CVal) : ℚ := (l.filterMap asNum).sum

/-- Maximum of the numeric cells (polars `max` skips nulls; `none` when
there is no numeric cell, in which case the Python comparison with the
resulting `None` raises and is caught — leaving the frame unchanged). -/
def colMax (l : List CVal) : Option ℚ :=
  (l.filterMap asNum).max?

/-- Cell-level product for `pl.col('price') * pl.col('quantity')`
(null-propagating, as in polars). -/
def mulCV : CVal → CVal → CVal
  | .num a, .num b => .num (a * b)
  | _, _ => .null

/-- `price × quantity`, row by row. -/
def zipMul (p q : List CVal) : List CVal :=
  (p.zip q).map (fun x => mulCV x.1 x.2)

/-- Replace the cells of an existing column, or append the column
(polars `with_columns`: overwrites when the name exists, appends at the
end otherwise). -/
def setCol (df : DF) (n : String) (cells : List CVal) : DF :=
  if n ∈ df.cols then
    df.map (fun c => if c.1 = n then (c.1, cells) else c)
  else
    df ++ [(n, cells)]

namespace Model

/-- The three critical identifier columns of `process_sales_data` step 4. -/
def criticalColumns : List String := ["order_id", "product_id", "customer_id"]

/-- Step 1: standardize column names. -/
def renameStep (df : DF) : DF := df.map (fun c => (normalizeName c.1, c.2))

/-- Step 2: convert date columns.  The actual `str.to_datetime` parsing
chain (default format, then the alternative formats, failures coerced to
null by `strict=False`) is abstracted into the cell-wise conversion
`conv`, an explicit parameter: every theorem below holds for every such
conversion.  It is applied exactly to the columns whose (lowercased)
name contains `date` or `time`, and preserves the number of cells. -/
def dateStep (conv : String → CVal → CVal) (df : DF) : DF :=
  df.map (fun c => if isDateColName c.1 then (c.1, c.2.map (conv c.1)) else c)

/-- `ANOMALY_THRESHOLD = 2.0`. -/
def anomalyThreshold : ℚ := 2

/-- Step 3: total-value reconciliation.  When `price` and `quantity`
exist: compute `total_value` if absent; otherwise compare its maximum
with `max(price) * max(quantity) * 2.0` and recompute the whole column
when it exceeds that bound.  When any of the three maxima is undefined
the Python comparison raises, the exception is caught, and the frame is
left unchanged. -/
def totalValueStep (df : DF) : DF :=
  if "price" ∈ df.cols ∧ "quantity" ∈ df.cols then
    if "total_value" ∉ df.cols then
      setCol df "total_value" (zipMul (df.getCol "price") (df.getCol "quantity"))
    else
      match colMax (df.getCol "total_value"),
            colMax (df.getCol "price"), colMax (df.getCol "quantity") with
      | some maxValue, some maxP, some maxQ =>
          if maxValue > maxP * maxQ * anomalyThreshold then
            setCol df "total_value" (zipMul (df.getCol "price") (df.getCol "quantity"))
          else df
      | _, _, _ => df
  else df

/-- Keep the cells whose mask entry is `true`. -/
def applyMask (mask : List Bool) (l : List CVal) : List CVal :=
  (mask.zip l).filterMap (fun x => if x.1 then some x.2 else none)

/-- `df.filter(~pl.col(col).is_null())`. -/
def filterNotNull (df : DF) (n : String) : DF :=
  let mask := (df.getCol n).map (fun c => decide (c ≠ CVal.null))
  df.map (fun c => (c.1, applyMask mask c.2))

/-- Nulls in one column. -/
def nullCount (df : DF) (n : String) : ℕ :=
  ((df.getCol n).filter (fun c => c = CVal.null)).length

/-- Step 4: count nulls over the present critical columns and, only when
there are any, drop the offending rows column-by-column (sequentially,
as the source's `for` loop does). -/
def nullFilterStep (df : DF) : DF :=
  let present := criticalColumns.filter (fun c => c ∈ df.cols)
  let totalNulls := (present.map (fun c => nullCount df c)).sum
  if totalNulls > 0 then present.foldl filterNotNull df else df

/-- The four columns `_validate_numeric_columns` iterates over
(`non_negative_columns`). -/
def nonNegativeColumns : List String :=
  ["price", "quantity", "total_value", "shipping_cost"]

/-- A Python exception escaping `process_sales_data`.  The one the
value-level model can hit is the `AttributeError` of step 5:
`pl.datatypes.is_numeric` is not an attribute of the `polars.datatypes`
module in any polars release (the real API is the `DataType.is_numeric`
method, or membership in `pl.NUMERIC_DTYPES`), and the loop guard
`col in df.columns and pl.datatypes.is_numeric(df[col].dtype)` in
`_validate_numeric_columns` evaluates that attribute — outside any
`try`; the inner `try` only starts after the guard — the moment its
first conjunct is true. -/
inductive PyErro where
  | atributoIsNumeric
deriving DecidableEq, Repr

/-- Steps 1-4 of `process_sales_data`: rename, date conversion,
total-value reconciliation, null-row filtering. -/
def pipelineCore (conv : String → CVal → CVal) (df : DF) : DF :=
  nullFilterStep (totalValueStep (dateStep conv (renameStep df)))

/-- Step 5, `self._validate_numeric_columns(processed_df)`: the loop
over `non_negative_columns` raises `AttributeError` at the first column
present (the nonexistent `pl.datatypes.is_numeric` is evaluated as soon
as `col in df.columns` holds); with none of the four present every
guard short-circuits on its false first conjunct and the call returns
`None`, after which the processed frame is returned. -/
def validateNumericStep (df : DF) : Except PyErro DF :=
  if nonNegativeColumns.any (fun c => decide (c ∈ df.cols)) then
    .error .atributoIsNumeric
  else .ok df

/-- `EcommerceModel.process_sales_data`: an empty or column-less frame
is returned unchanged before any step; otherwise steps 1-4 transform
the frame and step 5 either raises `AttributeError` (whenever one of
price/quantity/total_value/shipping_cost is among the processed
frame's columns) or lets the processed frame be returned. -/
def processSalesData (conv : String → CVal → CVal) (df : DF) :
    Except PyErro DF :=
  if df.nrows = 0 ∨ df = [] then .ok df
  else validateNumericStep (pipelineCore conv df)

end Model

/-! ## Calendar dates

`datetime` values are represented by (year, month, day); time of day is
carried separately where it matters.  Day arithmetic uses the standard
days-from-civil-epoch bijection, so `(d2 - d1).days` is
`daysFromCivil d2 - daysFromCivil d1`. -/

/-- A calendar date as carried by Python `datetime` / polars datetimes. -/
structure CDate where
  ano : ℤ
  mes : ℕ
  dia : ℕ
deriving DecidableEq, Repr

/-- Gregorian leap year. -/
def isLeap (y : ℤ) : Bool := (y % 4 = 0 ∧ y % 100 ≠ 0) ∨ y % 400 = 0

/-- Days in a month. -/
def daysInMonth (y : ℤ) (m : ℕ) : ℕ :=
  if m = 2 then (if isLeap y then 29 else 28)
  else if m = 4 ∨ m = 6 ∨ m = 9 ∨ m = 11 then 30
  else 31

/-- The dates `datetime.strptime` with format `%Y-%m-%d` accepts. -/
def ValidDate (d : CDate) : Prop :=
  1 ≤ d.mes ∧ d.mes ≤ 12 ∧ 1 ≤ d.dia ∧ d.dia ≤ daysInMonth d.ano d.mes

instance : DecidablePred ValidDate := fun d => by unfold ValidDate; infer_instance

/-- Day number of a civil date (epoch 1970-01-01 = day 0). -/
def daysFromCivil (d : CDate) : ℤ :=
  let y : ℤ := if d.mes ≤ 2 then d.ano - 1 else d.ano
  let era : ℤ := Int.fdiv y 400
  let yoe : ℤ := y - era * 400
  let mp : ℤ := ((d.mes : ℤ) + 9) % 12
  let doy : ℤ := (153 * mp + 2) / 5 + (d.dia : ℤ) - 1
  let doe : ℤ := yoe * 365 + yoe / 4 - yoe / 100 + doy
  era * 146097 + doe - 719468

namespace Dashboard

/-- The `while data_atual <= dt_fim` loop collecting one date per day. -/
def buildDays (cur fim : ℤ) : List ℤ :=
  if cur ≤ fim then cur :: buildDays (cur + 1) fim else []
termination_by (fim + 1 - cur).toNat
decreasing_by simp_wf; omega

/-- `PowerBIDashboard.criar_calendario_powerbi`, after `strptime` has
parsed the two `YYYY-MM-DD` strings into dates: swap when start > end,
cap the span at 3650 days, then collect one row per day.  The source
builds one calendar-row dict per element of this list, so the produced
table has exactly one row per returned day number. -/
def criarCalendarioPowerBI (dataInicio dataFim : CDate) : List ℤ :=
  let dtInicio := daysFromCivil dataInicio
  let dtFim := daysFromCivil dataFim
  let p := if dtInicio > dtFim then (dtFim, dtInicio) else (dtInicio, dtFim)
  let maxDias : ℤ := 3650
  let diasTotais := p.2 - p.1
  let fim := if diasTotais > maxDias then p.1 + maxDias else p.2
  buildDays p.1 fim

end Dashboard

namespace Controller

/-- The exceptions raised by the analysis entry points:
`colunaNaoEncontrada` and `colunaRegiaoNaoDetectada` are the explicit
`ValueError`s of the column checks; `conversaoData` is the `ValueError`
re-raised by `analisar_vendas_por_periodo`'s date-coercion `except`
("Não foi possível converter a coluna ...") ; `erroExecucao` is the
`RuntimeError` re-raised by `analisar_vendas_por_regiao`'s outer
`except Exception`. -/
inductive AnaliseErro where
  | colunaNaoEncontrada (nome : String)
  | colunaRegiaoNaoDetectada
  | conversaoData (nome : String)
  | erroExecucao
deriving DecidableEq, Repr

/-- Mean of the numeric cells of a column (polars `mean` skips nulls and
is null when there is nothing to average). -/
def numMean (l : List CVal) : Option ℚ :=
  let xs := l.filterMap asNum
  if xs.length = 0 then none else some (xs.sum / xs.length)

/-- The cells of `cells` lying in the group whose key column is `keys`
and whose key is `k` (positional, as a polars `group_by`). -/
def selBy {κ : Type} [DecidableEq κ] (keys : List κ) (k : κ) (cells : List CVal) :
    List CVal :=
  ((keys.zip cells).filter (fun p => decide (p.1 = k))).map (·.2)

/-- One output row of `analisar_vendas_por_categoria` (optional columns
are `none` exactly when the source column is absent). -/
structure CatRow where
  categoria : CVal
  valorTotal : ℚ
  numTransacoes : ℕ
  ticketMedio : Option ℚ
  quantidadeTotal : Option ℚ
  custoTotal : Option ℚ
  porcentagem : ℚ
  margemPercentual : Option ℚ
deriving DecidableEq, Repr

/-- One row of the secondary (category, subcategory) aggregation. -/
structure SubCatRow where
  categoria : CVal
  subcategoria : CVal
  valorTotal : ℚ
  numTransacoes : ℕ
  ticketMedio : Option ℚ
  quantidadeTotal : Option ℚ
  custoTotal : Option ℚ
deriving DecidableEq, Repr

/-- Return value of `analisar_vendas_por_categoria`: the plain category
table, plus the subcategory table when `product_subcategory` exists (the
source then returns the dict `{'categorias': ..., 'subcategorias': ...}`). -/
structure CatResult where
  categorias : List CatRow
  subcategorias : Option (List SubCatRow)
deriving DecidableEq, Repr

/-- Descending order on the summed value (`sort("valor_total",
descending=True)`). -/
def porValorDesc {α : Type} (valor : α → ℚ) (a b : α) : Bool :=
  decide (valor b ≤ valor a)

/-- The per-category aggregation rows (`df.group_by(coluna_categoria)
.agg(agg_exprs)`): one row per distinct category cell, with the optional
quantity/cost sums when those columns exist; the percentage and margin
columns are still to be added. -/
def catRowsBase (df : DF) (colunaCategoria colunaValor : String) : List CatRow :=
  let cats := df.getCol colunaCategoria
  let vals := df.getCol colunaValor
  cats.dedup.map (fun k =>
    let vs := selBy cats k vals
    ({ categoria := k
       valorTotal := numSum vs
       numTransacoes := vs.length
       ticketMedio := numMean vs
       quantidadeTotal :=
         if "quantity" ∈ df.cols then
           some (numSum (selBy cats k (df.getCol "quantity")))
         else none
       custoTotal :=
         if "cost_value" ∈ df.cols then
           some (numSum (selBy cats k (df.getCol "cost_value")))
         else none
       porcentagem := 0
       margemPercentual := none } : CatRow))

/-- Sort descending by summed value, then add `porcentagem` (of the
grand total across the groups) and, when cost data exists, the margin
percentage. -/
def catRowsFinal (df : DF) (colunaCategoria colunaValor : String) : List CatRow :=
  let sorted := sortBy (porValorDesc CatRow.valorTotal)
    (catRowsBase df colunaCategoria colunaValor)
  let totalVendas := (sorted.map (·.valorTotal)).sum
  sorted.map (fun r =>
    { r with
      porcentagem := round2 (r.valorTotal / totalVendas * 100)
      margemPercentual :=
        if "cost_value" ∈ df.cols then
          some (round2 ((r.valorTotal - r.custoTotal.getD 0) / r.valorTotal * 100))
        else none })

/-- The secondary (category, subcategory) aggregation. -/
def subCatRows (df : DF) (colunaCategoria colunaValor : String) : List SubCatRow :=
  let cats := df.getCol colunaCategoria
  let vals := df.getCol colunaValor
  let chaves := cats.zip (df.getCol "product_subcategory")
  sortBy (porValorDesc SubCatRow.valorTotal) (chaves.dedup.map (fun k =>
    let vs := selBy chaves k vals
    ({ categoria := k.1
       subcategoria := k.2
       valorTotal := numSum vs
       numTransacoes := vs.length
       ticketMedio := numMean vs
       quantidadeTotal :=
         if "quantity" ∈ df.cols then
           some (numSum (selBy chaves k (df.getCol "quantity")))
         else none
       custoTotal :=
         if "cost_value" ∈ df.cols then
           some (numSum (selBy chaves k (df.getCol "cost_value")))
         else none } : SubCatRow)))

/-- `AnaliseController.analisar_vendas_por_categoria`. -/
def analisarVendasPorCategoria (df : DF) (colunaCategoria colunaValor : String) :
    Except AnaliseErro CatResult :=
  if colunaCategoria ∉ df.cols then .error (.colunaNaoEncontrada colunaCategoria)
  else if colunaValor ∉ df.cols then .error (.colunaNaoEncontrada colunaValor)
  else
    .ok { categorias := catRowsFinal df colunaCategoria colunaValor
          subcategorias :=
            if "product_subcategory" ∈ df.cols then
              some (subCatRows df colunaCategoria colunaValor)
            else none }

/-- The fixed auto-detection candidate list. -/
def possiveisColunas : List String := ["region", "state", "city", "country"]

/-- The auto-detection loop over the candidate list: `coluna_regiao`
is assigned the first candidate present among the columns and the loop
breaks (a `find?`). -/
def detectarColunaRegiao (df : DF) : Option String :=
  possiveisColunas.find? (fun c => decide (c ∈ df.cols))

/-- The grouping column `analisar_vendas_por_regiao` ends up with: the
caller's column when given, else the auto-detected one. -/
def colunaRegiaoEscolhida (df : DF) (colunaRegiao : Option String) :
    Option String :=
  match colunaRegiao with
  | some c => some c
  | none => detectarColunaRegiao df

/-- `AnaliseController.analisar_vendas_por_regiao`.  After the column
checks, the body's aggregation `select`s the scalar
`sum()`/`count()`/`mean()` expressions alongside the key column — polars
broadcasts those scalars to the frame's full height, so every row
carries the *grand* total — and then `group_by(...).agg([pl.col(...)])`
with bare column expressions implodes each group's values into
list-dtype columns.  The subsequent `sort`/`Series.sum`/arithmetic/
`round` on those list columns raises in every polars release (list
arithmetic only appears in polars ≥ 1.8, which no longer has the
`map_dict` this file's code calls), the outer `except Exception`
catches it, and the function re-raises `RuntimeError`.  It therefore
never returns a frame: its outcomes are exactly the three exceptions
below, and the `.ok` branch of the result type is unreachable. -/
def analisarVendasPorRegiao (df : DF) (colunaRegiao : Option String)
    (colunaValor : String) : Except AnaliseErro DF :=
  match colunaRegiaoEscolhida df colunaRegiao with
  | none => .error .colunaRegiaoNaoDetectada
  | some creg =>
    if creg ∉ df.cols then .error (.colunaNaoEncontrada creg)
    else if colunaValor ∉ df.cols then .error (.colunaNaoEncontrada colunaValor)
    else .error .erroExecucao

/-! ### By-period analysis -/

/-- The fixed 7-entry weekday-name dict of the source
(`{0: "Segunda", ..., 6: "Domingo"}`, lines 254-257) — defined inside
the weekday `try` block, which the `ValueError` below keeps the
interpreter from ever reaching. -/
def diasSemana : List (ℕ × String) :=
  [(0, "Segunda"), (1, "Terça"), (2, "Quarta"), (3, "Quinta"),
   (4, "Sexta"), (5, "Sábado"), (6, "Domingo")]

/-- The quarter gate's count (line 274,
`df.select(pl.col(coluna_data).dt.month()).unique().shape[0]`): the
number of distinct month values among the date cells — written here
over the parsed dates, since in the source the expression is dead code
(the call raises before reaching it). -/
def mesesUnicos (datas : List CDate) : ℕ := (datas.map (·.mes)).dedup.length

/-- `AnaliseController.analisar_vendas_por_periodo`.  After the two
column checks, the `try` at lines 176-185 evaluates
`pl.datatypes.is_temporal(df[coluna_data].dtype)`; `is_temporal` is not
an attribute of the `polars.datatypes` module in any polars release
(the real API is the `DataType.is_temporal` method), so the guard
raises `AttributeError`, the `except` catches it, and the function
re-raises `ValueError` ("Não foi possível converter a coluna ...").
None of the four breakdowns below the guard — by day, by month, by
weekday, by quarter with its ≥ 3-distinct-months gate — is ever
reached, whatever the data; the `.ok` branch of the result type (the
analyses dict, name → frame) is unreachable. -/
def analisarVendasPorPeriodo (df : DF) (colunaData colunaValor : String) :
    Except AnaliseErro (List (String × DF)) :=
  if colunaData ∉ df.cols then .error (.colunaNaoEncontrada colunaData)
  else if colunaValor ∉ df.cols then .error (.colunaNaoEncontrada colunaValor)
  else .error (.conversaoData colunaData)

end Controller

namespace Dados

/-- The fixed category list of `_inicializar_dados_sementes`. -/
def categorias : List String :=
  ["Eletrônicos", "Roupas", "Livros", "Casa e Jardim", "Esportes",
   "Beleza", "Brinquedos", "Alimentos", "Saúde", "Ferramentas"]

/-- The fixed payment-method list. -/
def metodosPagamento : List String :=
  ["Cartão de Crédito", "Boleto", "Pix", "PayPal", "Apple Pay",
   "Google Pay", "Cartão de Débito"]

/-- The fixed state-code list. -/
def estados : List String :=
  ["SP", "RJ", "MG", "RS", "PR", "SC", "BA", "PE", "CE", "GO",
   "DF", "PA", "AM", "MA", "ES", "PB", "RN", "MT", "MS", "AL"]

/-- The static state → macro-region lookup. -/
def regiaoPorEstado : List (String × String) :=
  [("AC", "Norte"), ("AM", "Norte"), ("AP", "Norte"), ("PA", "Norte"),
   ("RO", "Norte"), ("RR", "Norte"), ("TO", "Norte"),
   ("AL", "Nordeste"), ("BA", "Nordeste"), ("CE", "Nordeste"),
   ("MA", "Nordeste"), ("PB", "Nordeste"), ("PE", "Nordeste"),
   ("PI", "Nordeste"), ("RN", "Nordeste"), ("SE", "Nordeste"),
   ("DF", "Centro-Oeste"), ("GO", "Centro-Oeste"), ("MS", "Centro-Oeste"),
   ("MT", "Centro-Oeste"),
   ("ES", "Sudeste"), ("MG", "Sudeste"), ("RJ", "Sudeste"), ("SP", "Sudeste"),
   ("PR", "Sul"), ("RS", "Sul"), ("SC", "Sul")]

/-- Fractional part, in `[0, 1)`. -/
def fracPart (q : ℚ) : ℚ := q - Int.floor q

/-- `random.randint(lo, hi)` driven by an oracle draw: an arbitrary
value reduced into the inclusive range. -/
def randint (lo hi draw : ℕ) : ℕ := lo + draw % (hi - lo + 1)

/-- `random.uniform(a, b)` driven by an oracle draw. -/
def uniform (a b u : ℚ) : ℚ := a + (b - a) * fracPart u

/-- `random.choices(['Entregue', 'Em processamento', 'Enviado',
'Cancelado'], weights=[0.7, 0.1, 0.15, 0.05])`: the cumulative-weight
selection at a uniform point of `[0, 1)`. -/
def statusPedido (u : ℚ) : String :=
  if fracPart u < 7/10 then "Entregue"
  else if fracPart u < 8/10 then "Em processamento"
  else if fracPart u < 19/20 then "Enviado"
  else "Cancelado"

/-- The random draws consumed while generating one sales record, in the
order the source consumes them. -/
structure Draw where
  diasAleatorios : ℕ
  hora : ℕ
  minuto : ℕ
  segundo : ℕ
  categoriaIdx : ℕ
  precoU : ℚ
  quantidadeIdx : ℕ
  statusU : ℚ
  estadoIdx : ℕ
  pagamentoIdx : ℕ
  freteU : ℚ
  transacaoIdx : ℕ
  clienteIdx : ℕ
  produtoIdx : ℕ

/-- One synthetic sales record (the CSV row the generator writes). -/
structure Registro where
  transactionId : String
  dataDia : ℤ
  hora : ℕ
  minuto : ℕ
  segundo : ℕ
  customerId : String
  productId : String
  productCategory : String
  price : ℚ
  quantity : ℕ
  totalValue : ℚ
  paymentMethod : String
  shippingCost : ℚ
  state : String
  region : String
  orderStatus : String

/-- The body of the generation loop of `gerar_dados_sinteticos`. -/
def gerarRegistro (startDia endDia : ℤ) (d : Draw) : Registro :=
  let dias := randint 0 (endDia - startDia).toNat d.diasAleatorios
  let preco := round2 (uniform 10 500 d.precoU)
  let quantidade := randint 1 5 d.quantidadeIdx
  let estado := (estados.get? (d.estadoIdx % estados.length)).getD ""
  { transactionId := "TRX-" ++ toString (randint 100000 999999 d.transacaoIdx)
    dataDia := startDia + dias
    hora := randint 8 23 d.hora
    minuto := randint 0 59 d.minuto
    segundo := randint 0 59 d.segundo
    customerId := "CUST-" ++ toString (randint 1000 9999 d.clienteIdx)
    productId := "PROD-" ++ toString (randint 10000 99999 d.produtoIdx)
    productCategory := (categorias.get? (d.categoriaIdx % categorias.length)).getD ""
    price := preco
    quantity := quantidade
    totalValue := round2 (preco * quantidade)
    paymentMethod :=
      (metodosPagamento.get? (d.pagamentoIdx % metodosPagamento.length)).getD ""
    shippingCost := round2 (uniform 5 30 d.freteU)
    state := estado
    region :=
      ((regiaoPorEstado.find? (fun p => decide (p.1 = estado))).map (·.2)).getD
        "Não definida"
    orderStatus := statusPedido d.statusU }

/-- `ObterDadosEcommerce.gerar_dados_sinteticos`, with `strptime`-parsed
date bounds (day numbers; `none` selects the default trailing-365-day
window ending at `hoje`) and the pseudo-random source as an explicit
oracle.  A non-positive requested count is replaced by the default 1000
(with a logged warning) rather than raising; an `end < start` range is
swapped.  The returned record list is exactly what `df.to_csv` then
saves, one CSV row per record. -/
def gerarDadosSinteticos (numRegistros : ℤ) (startDia endDia : Option ℤ)
    (hoje : ℤ) (draws : ℕ → Draw) : List Registro :=
  let n := if numRegistros ≤ 0 then 1000 else numRegistros.toNat
  let s := startDia.getD (hoje - 365)
  let e := endDia.getD hoje
  let p := if e < s then (e, s) else (s, e)
  (List.range n).map (fun i => gerarRegistro p.1 p.2 (draws i))

end Dados

/-! ## Concrete frames and inputs used to instantiate the theorems -/

/-- The identity cell conversion (a date column whose parse attempts all
fail is left as-is). -/
def convId : String → CVal → CVal := fun _ c => c

/-- A small sales table with two categories. -/
def dfCat : DF :=
  [("product_category", [CVal.str "A", CVal.str "B", CVal.str "A"]),
   ("total_value", [CVal.num 10, CVal.num 30, CVal.num 20])]

/-- A small sales table whose only region-candidate column is `state`. -/
def dfReg : DF :=
  [("state", [CVal.str "SP", CVal.str "RJ", CVal.str "SP"]),
   ("total_value", [CVal.num 10, CVal.num 30, CVal.num 20])]

/-- A zero-row table carrying the category and value columns. -/
def dfVazia : DF := [("product_category", []), ("total_value", [])]

/-- A one-row table whose stored `total_value` (100) exceeds
`max(price) × max(quantity) × 2.0 = 12`. -/
def dfAnomalia : DF :=
  [("price", [CVal.num 2]), ("quantity", [CVal.num 3]),
   ("total_value", [CVal.num 100])]

/-- A table with a null `order_id` in its second row. -/
def dfNulos : DF :=
  [("order_id", [CVal.str "a", CVal.null]),
   ("total_value", [CVal.num 1, CVal.num 2])]

/-- Three sale dates spanning three distinct months (two quarters). -/
def datasTrimestre : List CDate := [⟨2023, 1, 5⟩, ⟨2023, 2, 5⟩, ⟨2023, 4, 5⟩]

/-- The corresponding sales table: its date column holds the three
dates above, so it spans three distinct months. -/
def dfTrim : DF :=
  [("date", datasTrimestre.map (fun d => CVal.dt (daysFromCivil d) 0)),
   ("total_value", [CVal.num 10, CVal.num 20, CVal.num 30])]

/-- A single sale on Monday 2023-01-02: the input on which the claimed
weekday breakdown would produce one group of index 0 named `Segunda`. -/
def dfSemana : DF :=
  [("date", [CVal.dt (daysFromCivil ⟨2023, 1, 2⟩) 0]),
   ("total_value", [CVal.num 50])]

/-- A table without any of the four step-5 columns: `process_sales_data`
returns it (its name is already normalized and it has no nulls). -/
def dfSimples : DF := [("order_id", [CVal.str "a", CVal.str "b"])]

/-- A fixed draw for the generator oracle. -/
def drawZero : Dados.Draw := ⟨0, 0, 0, 0, 0, 1/3, 2, 1/2, 0, 0, 1/4, 0, 0, 0⟩

/-! ## Theorems -/

/-- Inserting permutes to consing. -/
theorem insertBy_perm {α : Type} (le : α → α → Bool) (a : α) :
    ∀ l : List α, List.Perm (insertBy le a l) (a :: l) := by
  intro l
  induction l with
  | nil => simp [insertBy]
  | cons b bs ih =>
    unfold insertBy
    split
    · exact List.Perm.refl _
    · exact (ih.cons b).trans (List.Perm.swap a b bs)

/-- Sorting permutes the list. -/
theorem sortBy_perm {α : Type} (le : α → α → Bool) :
    ∀ l : List α, List.Perm (sortBy le l) l := by
  intro l
  induction l with
  | nil => simp [sortBy]
  | cons a as ih => exact (insertBy_perm le a (sortBy le as)).trans (ih.cons a)

/-- Sorting preserves length. -/
theorem sortBy_length {α : Type} (le : α → α → Bool) (l : List α) :
    (sortBy le l).length = l.length :=
  (sortBy_perm le l).length_eq

/-- Sorting preserves membership. -/
theorem mem_sortBy {α : Type} {le : α → α → Bool} {x : α} {l : List α} :
    x ∈ sortBy le l ↔ x ∈ l :=
  (sortBy_perm le l).mem_iff

/-- Inserting into a sorted list keeps it sorted (for a transitive,
total boolean comparison). -/
theorem insertBy_pairwise {α : Type} {le : α → α → Bool}
    (htr : ∀ a b c, le a b = true → le b c = true → le a c = true)
    (hto : ∀ a b, le a b = true ∨ le b a = true) (a : α) :
    ∀ l : List α, l.Pairwise (fun x y => le x y = true) →
      (insertBy le a l).Pairwise (fun x y => le x y = true) := by
  intro l
  induction l with
  | nil => intro _; simp [insertBy]
  | cons b bs ih =>
    intro hp
    rw [List.pairwise_cons] at hp
    obtain ⟨hb, hbs⟩ := hp
    unfold insertBy
    split
    · next hab =>
      refine List.pairwise_cons.mpr ⟨?_, List.pairwise_cons.mpr ⟨hb, hbs⟩⟩
      intro x hx
      rcases List.mem_cons.mp hx with hxb | hxbs
      · exact hxb ▸ hab
      · exact htr a b x hab (hb x hxbs)
    · next hab =>
      refine List.pairwise_cons.mpr ⟨?_, ih hbs⟩
      intro x hx
      rcases List.mem_cons.mp ((insertBy_perm le a bs).mem_iff.mp hx) with hxa | hxbs
      · subst hxa
        cases hto b x with
        | inl h => exact h
        | inr h => exact absurd h (by simp [hab])
      · exact hb x hxbs

/-- The sort is sorted (for a transitive, total boolean comparison). -/
theorem sortBy_pairwise {α : Type} {le : α → α → Bool}
    (htr : ∀ a b c, le a b = true → le b c = true → le a c = true)
    (hto : ∀ a b, le a b = true ∨ le b a = true) :
    ∀ l : List α, (sortBy le l).Pairwise (fun x y => le x y = true) := by
  intro l
  induction l with
  | nil => simp [sortBy]
  | cons a as ih => exact insertBy_pairwise htr hto a (sortBy le as) ih

/-- Length of the day-collecting loop. -/
theorem buildDays_length (a b : ℤ) :
    (Dashboard.buildDays a b).length = (b + 1 - a).toNat := by
  unfold Dashboard.buildDays
  split
  · rw [List.length_cons, buildDays_length (a + 1) b]
    omega
  · simp
    omega
termination_by (b + 1 - a).toNat
decreasing_by simp_wf; omega

/-- The loop enumerates consecutive days starting at `a`. -/
theorem buildDays_eq_range (a b : ℤ) :
    Dashboard.buildDays a b
      = (List.range (b + 1 - a).toNat).map (fun i : ℕ => a + (i : ℤ)) := by
  unfold Dashboard.buildDays
  split
  · rw [buildDays_eq_range (a + 1) b]
    have hn : (b + 1 - a).toNat = (b + 1 - (a + 1)).toNat + 1 := by omega
    rw [hn, List.range_succ_eq_map, List.map_cons, List.map_map]
    refine congrArg₂ List.cons (by simp) ?_
    refine List.map_congr_left ?_
    intro i _
    simp [Function.comp, Nat.succ_eq_add_one]
    ring
  · have hn : (b + 1 - a).toNat = 0 := by omega
    simp [hn]
termination_by (b + 1 - a).toNat
decreasing_by simp_wf; omega

/-- C4: for valid `YYYY-MM-DD` dates with start ≤ end, the calendar
builder emits one row per day of the inclusive range — `span + 1` rows
when the span is at most 3650 days, and exactly 3651 rows (the days from
start through start + 3650) when the requested span exceeds the cap. -/
theorem C4_calendario_completo (s e : CDate) (_hs : ValidDate s) (_he : ValidDate e)
    (hle : daysFromCivil s ≤ daysFromCivil e) :
    ((Dashboard.criarCalendarioPowerBI s e).length
        = if daysFromCivil e - daysFromCivil s ≤ 3650
          then (daysFromCivil e - daysFromCivil s).toNat + 1
          else 3651)
    ∧ Dashboard.criarCalendarioPowerBI s e
        = (List.range (Dashboard.criarCalendarioPowerBI s e).length).map
            (fun i : ℕ => daysFromCivil s + (i : ℤ)) := by
  have hswap : ¬ daysFromCivil s > daysFromCivil e := by omega
  simp only [Dashboard.criarCalendarioPowerBI, if_neg hswap]
  constructor
  · by_cases hcap : daysFromCivil e - daysFromCivil s ≤ 3650
    · rw [if_pos hcap, if_neg (show ¬ daysFromCivil e - daysFromCivil s > 3650 by omega),
        buildDays_length]
      omega
    · rw [if_neg hcap, if_pos (show daysFromCivil e - daysFromCivil s > 3650 by omega),
        buildDays_length]
      omega
  · rw [buildDays_length, buildDays_eq_range]

/-- C4 witness: 2023-01-01 through 2023-01-10 (valid dates, span 9 days)
yields 10 rows. -/
theorem C4_calendario_completo_witness :
    (Dashboard.criarCalendarioPowerBI ⟨2023, 1, 1⟩ ⟨2023, 1, 10⟩).length
      = if daysFromCivil ⟨2023, 1, 10⟩ - daysFromCivil ⟨2023, 1, 1⟩ ≤ 3650
        then (daysFromCivil ⟨2023, 1, 10⟩ - daysFromCivil ⟨2023, 1, 1⟩).toNat + 1
        else 3651 :=
  (C4_calendario_completo ⟨2023, 1, 1⟩ ⟨2023, 1, 10⟩ (by decide) (by decide)
    (by decide)).1

/-- C9: a non-positive requested record count does not raise: the
default count (1000) is substituted and exactly that many records are
generated (and written to the CSV, one row each). -/
theorem C9_contagem_padrao (numRegistros : ℤ) (h : numRegistros ≤ 0)
    (startDia endDia : Option ℤ) (hoje : ℤ) (draws : ℕ → Dados.Draw) :
    (Dados.gerarDadosSinteticos numRegistros startDia endDia hoje draws).length
      = 1000 := by
  unfold Dados.gerarDadosSinteticos
  simp [if_pos h]

/-- C9 witness: requesting -5 records still produces 1000. -/
theorem C9_contagem_padrao_witness :
    (Dados.gerarDadosSinteticos (-5) none none 20000 (fun _ => drawZero)).length
      = 1000 :=
  C9_contagem_padrao (-5) (by decide) none none 20000 (fun _ => drawZero)

/-- C10: a zero-row or zero-column frame is returned unchanged and no
exception is raised: the early-return guard fires before every
processing step — in particular before the step-5 call that raises on
frames carrying numeric columns. -/
theorem C10_frame_vazio (conv : String → CVal → CVal) (df : DF)
    (h : df.nrows = 0 ∨ df = []) :
    Model.processSalesData conv df = .ok df := by
  unfold Model.processSalesData
  rw [if_pos h]

/-- C10 witness: a frame with columns but no rows is returned as-is. -/
theorem C10_frame_vazio_witness :
    Model.processSalesData convId dfVazia = .ok dfVazia :=
  C10_frame_vazio convId dfVazia (Or.inl (by decide))

/-- Two-decimal rounding is idempotent. -/
theorem round2_round2 (x : ℚ) : round2 (round2 x) = round2 x := by
  unfold round2
  rw [div_mul_cancel₀ _ (by norm_num : (100 : ℚ) ≠ 0), round_intCast]

/-- Two-decimal rounding is monotone. -/
theorem round2_mono {x y : ℚ} (h : x ≤ y) : round2 x ≤ round2 y := by
  unfold round2
  have hr : round (x * 100) ≤ round (y * 100) := by
    rw [round_eq, round_eq]
    exact Int.floor_le_floor (by linarith)
  have hc : ((round (x * 100) : ℤ) : ℚ) ≤ ((round (y * 100) : ℤ) : ℚ) :=
    Int.cast_le.mpr hr
  linarith

/-- The model of `random.uniform(a, b)` stays in `[a, b]`. -/
theorem uniform_mem {a b : ℚ} (u : ℚ) (hab : a ≤ b) :
    a ≤ Dados.uniform a b u ∧ Dados.uniform a b u ≤ b := by
  have h0 : (0 : ℚ) ≤ Dados.fracPart u := Int.fract_nonneg u
  have h1 : Dados.fracPart u < 1 := Int.fract_lt_one u
  unfold Dados.uniform
  constructor
  · nlinarith
  · nlinarith

/-- C8: every generated record has `total_value = round(price ×
quantity, 2)`, a price that is a 2-decimal value in `[10, 500]`, and an
integer quantity in `[1, 5]` — for every requested count, date range and
random stream. -/
theorem C8_total_redondo (numRegistros : ℤ) (startDia endDia : Option ℤ)
    (hoje : ℤ) (draws : ℕ → Dados.Draw) :
    ∀ r ∈ Dados.gerarDadosSinteticos numRegistros startDia endDia hoje draws,
      r.totalValue = round2 (r.price * r.quantity)
      ∧ r.price = round2 r.price ∧ 10 ≤ r.price ∧ r.price ≤ 500
      ∧ 1 ≤ r.quantity ∧ r.quantity ≤ 5 := by
  intro r hr
  simp only [Dados.gerarDadosSinteticos, List.mem_map, List.mem_range] at hr
  obtain ⟨i, _, hri⟩ := hr
  subst hri
  have h10 : round2 10 = 10 := by
    rw [round2, show (10 : ℚ) * 100 = ((1000 : ℤ) : ℚ) by norm_num, round_intCast]
    norm_num
  have h500 : round2 500 = 500 := by
    rw [round2, show (500 : ℚ) * 100 = ((50000 : ℤ) : ℚ) by norm_num, round_intCast]
    norm_num
  have hu := uniform_mem (a := 10) (b := 500) (draws i).precoU (by norm_num)
  unfold Dados.gerarRegistro
  dsimp only
  refine ⟨rfl, (round2_round2 _).symm, ?_, ?_, ?_, ?_⟩
  · calc (10 : ℚ) = round2 10 := h10.symm
      _ ≤ _ := round2_mono hu.1
  · calc round2 (Dados.uniform 10 500 (draws i).precoU)
        ≤ round2 500 := round2_mono hu.2
      _ = 500 := h500
  · unfold Dados.randint
    omega
  · unfold Dados.randint
    omega

/-- C3: the quarterly breakdown is never produced.  Once the date and
value columns are present, `analisar_vendas_por_periodo` always raises
`ValueError` at its date-coercion guard — `pl.datatypes.is_temporal`
does not exist in any polars release, the `AttributeError` is caught
and re-raised as `ValueError` — so no analyses dict is ever returned;
in particular the concrete table `dfTrim`, whose date column spans
three distinct months and for which the claim demands a
`vendas_por_trimestre` entry, only yields the exception.  The
≥ 3-distinct-months gate at line 276 (and the quarter formula and
sorting behind it) is dead code. -/
theorem C3_trimestre_inalcancavel :
    (∀ (df : DF) (colunaData colunaValor : String),
        colunaData ∈ df.cols → colunaValor ∈ df.cols →
        Controller.analisarVendasPorPeriodo df colunaData colunaValor
          = .error (.conversaoData colunaData))
    ∧ dfTrim.getCol "date"
        = datasTrimestre.map (fun d => CVal.dt (daysFromCivil d) 0)
    ∧ 3 ≤ Controller.mesesUnicos datasTrimestre
    ∧ Controller.analisarVendasPorPeriodo dfTrim "date" "total_value"
        = .error (.conversaoData "date") := by
  have h1 : ∀ (df : DF) (colunaData colunaValor : String),
      colunaData ∈ df.cols → colunaValor ∈ df.cols →
      Controller.analisarVendasPorPeriodo df colunaData colunaValor
        = .error (.conversaoData colunaData) := by
    intro df cd cv hd hv
    unfold Controller.analisarVendasPorPeriodo
    rw [if_neg (not_not.mpr hd), if_neg (not_not.mpr hv)]
  exact ⟨h1, rfl, by decide, h1 dfTrim "date" "total_value" (by decide) (by decide)⟩

/-- C3 witness: the three-month table has both columns present and the
call returns the `ValueError`, not a result set. -/
theorem C3_trimestre_inalcancavel_witness :
    Controller.analisarVendasPorPeriodo dfTrim "date" "total_value"
      = .error (.conversaoData "date") :=
  C3_trimestre_inalcancavel.1 dfTrim "date" "total_value" (by decide) (by decide)

/-- C8 witness: the single record generated from a fixed draw satisfies
the round-trip-total and range properties. -/
theorem C8_total_redondo_witness :
    (Dados.gerarRegistro 19635 20000 drawZero).totalValue
      = round2 ((Dados.gerarRegistro 19635 20000 drawZero).price
          * (Dados.gerarRegistro 19635 20000 drawZero).quantity)
    ∧ 10 ≤ (Dados.gerarRegistro 19635 20000 drawZero).price
    ∧ (Dados.gerarRegistro 19635 20000 drawZero).quantity ≤ 5 := by
  have hmem : Dados.gerarRegistro 19635 20000 drawZero
      ∈ Dados.gerarDadosSinteticos 1 none none 20000 (fun _ => drawZero) := by
    have hl : Dados.gerarDadosSinteticos 1 none none 20000 (fun _ => drawZero)
        = [Dados.gerarRegistro 19635 20000 drawZero] := rfl
    rw [hl]
    exact List.mem_singleton.mpr rfl
  have h := C8_total_redondo 1 none none 20000 (fun _ => drawZero) _ hmem
  exact ⟨h.1, h.2.2.1, h.2.2.2.2.2⟩

/-- C7: with `coluna_regiao=None` the grouping column really is the
first element of the fixed candidate list (`region`, `state`, `city`,
`country`) present among the table's columns, and when none is present
the `ValueError` ("Não foi possível detectar uma coluna de região") is
raised — but the claimed success never follows: once a candidate is
selected and the value column exists, the broadcast-`select`/list-`agg`
aggregation raises in every polars release and the outer `except`
re-raises `RuntimeError`, so the by-region analysis never succeeds on
any input. -/
theorem C7_deteccao_sem_sucesso :
    (∀ (df : DF) (pre post : List String) (c : String),
        Controller.possiveisColunas = pre ++ c :: post →
        (∀ p ∈ pre, p ∉ df.cols) → c ∈ df.cols →
        Controller.detectarColunaRegiao df = some c)
    ∧ (∀ (df : DF) (colunaValor : String),
        (∀ c ∈ Controller.possiveisColunas, c ∉ df.cols) →
        Controller.analisarVendasPorRegiao df none colunaValor
          = .error .colunaRegiaoNaoDetectada)
    ∧ (∀ (df : DF) (colunaValor c : String),
        Controller.detectarColunaRegiao df = some c →
        colunaValor ∈ df.cols →
        Controller.analisarVendasPorRegiao df none colunaValor
          = .error .erroExecucao) := by
  refine ⟨?_, ?_, ?_⟩
  · intro df pre post c hms hpre hc
    unfold Controller.detectarColunaRegiao
    rw [hms, List.find?_append]
    have h1 : pre.find? (fun x => decide (x ∈ DF.cols df)) = none :=
      List.find?_eq_none.mpr (fun x hx => by simpa using hpre x hx)
    rw [h1, Option.none_or, List.find?_cons_of_pos _ (by simpa using hc)]
  · intro df colunaValor h
    have hfind : Controller.detectarColunaRegiao df = none :=
      List.find?_eq_none.mpr (fun x hx => by simpa using h x hx)
    unfold Controller.analisarVendasPorRegiao Controller.colunaRegiaoEscolhida
    rw [hfind]
  · intro df colunaValor c hdet hval
    have hc : c ∈ df.cols := by
      have := List.find?_some hdet
      simpa using this
    unfold Controller.analisarVendasPorRegiao Controller.colunaRegiaoEscolhida
    rw [hdet]
    show (if c ∉ df.cols
        then Except.error (Controller.AnaliseErro.colunaNaoEncontrada c)
        else if colunaValor ∉ df.cols
          then Except.error (Controller.AnaliseErro.colunaNaoEncontrada colunaValor)
          else Except.error Controller.AnaliseErro.erroExecucao)
      = Except.error Controller.AnaliseErro.erroExecucao
    rw [if_neg (not_not.mpr hc), if_neg (not_not.mpr hval)]

/-- C7 witness: a table whose only candidate is `state` selects `state`
— and the call then raises the `RuntimeError` instead of succeeding. -/
theorem C7_deteccao_sem_sucesso_witness :
    Controller.detectarColunaRegiao dfReg = some "state"
    ∧ Controller.analisarVendasPorRegiao dfReg none "total_value"
        = .error .erroExecucao :=
  ⟨C7_deteccao_sem_sucesso.1 dfReg ["region"] ["city", "country"] "state" rfl
      (by decide) (by decide),
    C7_deteccao_sem_sucesso.2.2 dfReg "total_value" "state" rfl (by decide)⟩

/-- C6: the weekday breakdown is never produced, let alone with the
claimed Monday = 0 grouping and total 7-entry naming.
`analisar_vendas_por_periodo` raises on every input — `ValueError` at
the date-coercion guard once both columns exist (`pl.datatypes.
is_temporal` exists in no polars release) — so no analyses dict, and
no `vendas_por_dia_semana` entry, is ever returned; even behind that
guard, the weekday block's broadcast-`select`/list-`agg` output makes
its own `with_columns` division raise in the `group_by`+`map_dict`
polars window, and the name dict `diasSemana` is defined inside that
dead block.  Concretely, the single Monday sale `dfSemana`, for which
the claim demands one group of index 0 named `Segunda`, only yields
the exception. -/
theorem C6_dia_semana_nunca_produzida :
    (∀ (df : DF) (colunaData colunaValor : String), ∃ e,
        Controller.analisarVendasPorPeriodo df colunaData colunaValor
          = .error e)
    ∧ Controller.analisarVendasPorPeriodo dfSemana "date" "total_value"
        = .error (.conversaoData "date") := by
  constructor
  · intro df cd cv
    unfold Controller.analisarVendasPorPeriodo
    by_cases hd : cd ∉ df.cols
    · exact ⟨_, by rw [if_pos hd]⟩
    by_cases hv : cv ∉ df.cols
    · exact ⟨_, by rw [if_neg hd, if_pos hv]⟩
    · exact ⟨_, by rw [if_neg hd, if_neg hv]⟩
  · rfl

theorem getCol_eq_nil_of_not_mem {df : DF} {n : String} (h : n ∉ df.cols) :
    df.getCol n = [] := by
  unfold DF.getCol
  have : df.find? (fun c => c.1 = n) = none := by
    rw [List.find?_eq_none]
    intro c hc
    simp only [decide_eq_true_eq]
    intro h1
    exact h (h1 ▸ List.mem_map.mpr ⟨c, hc, rfl⟩)
  rw [this]
  rfl

theorem getCol_isSome_of_mem {df : DF} {n : String} (h : n ∈ df.cols) :
    ∃ c ∈ df, c.1 = n ∧ df.getCol n = c.2 := by
  obtain ⟨c, hc, hcn⟩ := List.mem_map.mp h
  have hfind : (df.find? (fun c => c.1 = n)).isSome := by
    rw [List.find?_isSome]
    exact ⟨c, hc, by simp [hcn]⟩
  obtain ⟨c', hc'⟩ := Option.isSome_iff_exists.mp hfind
  refine ⟨c', List.mem_of_find?_eq_some hc', ?_, ?_⟩
  · have := List.find?_some hc'
    simpa using this
  · unfold DF.getCol
    rw [hc']
    rfl

theorem getCol_length_of_WF {df : DF} {n : String} (hwf : df.WF) (h : n ∈ df.cols) :
    (df.getCol n).length = df.nrows := by
  obtain ⟨c, hc, _, hget⟩ := getCol_isSome_of_mem h
  rw [hget]
  exact hwf c hc

theorem cols_map_eq {g : String × List CVal → String × List CVal}
    (hg : ∀ c, (g c).1 = c.1) (df : DF) : DF.cols (df.map g) = df.cols := by
  unfold DF.cols
  rw [List.map_map]
  exact List.map_congr_left (fun c _ => hg c)

theorem getCol_map_eq {g : String × List CVal → String × List CVal}
    (hg : ∀ c, (g c).1 = c.1) (df : DF) (n : String) :
    DF.getCol (df.map g) n = ((df.find? (fun c => decide (c.1 = n))).map
      (fun c => (g c).2)).getD [] := by
  induction df with
  | nil => rfl
  | cons c t ih =>
    by_cases hc : c.1 = n
    · unfold DF.getCol
      rw [List.map_cons, List.find?_cons_of_pos _ (by simp [hg, hc]),
        List.find?_cons_of_pos _ (by simp [hc])]
      rfl
    · unfold DF.getCol
      rw [List.map_cons, List.find?_cons_of_neg _ (by simp [hg, hc]),
        List.find?_cons_of_neg _ (by simp [hc])]
      exact ih

theorem dateStep_name (conv : String → CVal → CVal) :
    ∀ c : String × List CVal,
      ((if isDateColName c.1 then (c.1, c.2.map (conv c.1)) else c) : String × List CVal).1
        = c.1 := by
  intro c
  split
  · rfl
  · rfl

theorem cols_dateStep (conv : String → CVal → CVal) (df : DF) :
    DF.cols (Model.dateStep conv df) = df.cols :=
  cols_map_eq (dateStep_name conv) df

theorem getCol_dateStep (conv : String → CVal → CVal) (df : DF) (n : String) :
    DF.getCol (Model.dateStep conv df) n
      = if isDateColName n then (df.getCol n).map (conv n) else df.getCol n := by
  unfold Model.dateStep
  rw [getCol_map_eq (dateStep_name conv)]
  cases hfind : df.find? (fun c => decide (c.1 = n)) with
  | none =>
    have hget : df.getCol n = [] := by
      unfold DF.getCol
      rw [hfind]
      rfl
    rw [hget]
    split
    · rfl
    · rfl
  | some c =>
    have hcn : c.1 = n := by simpa using List.find?_some hfind
    have hget : df.getCol n = c.2 := by
      unfold DF.getCol
      rw [hfind]
      rfl
    rw [hget]
    subst hcn
    simp only [Option.map_some', Option.getD_some]
    rw [apply_ite Prod.snd]

theorem getCol_filterNotNull (df : DF) (cn n : String) :
    DF.getCol (Model.filterNotNull df cn) n
      = Model.applyMask ((df.getCol cn).map (fun c => decide (c ≠ CVal.null)))
          (df.getCol n) := by
  simp only [Model.filterNotNull]
  rw [@getCol_map_eq (fun c => (c.1, Model.applyMask
    ((df.getCol cn).map (fun x => decide (x ≠ CVal.null))) c.2)) (fun c => rfl) df n]
  cases hfind : df.find? (fun c => decide (c.1 = n)) with
  | none =>
    have hget : df.getCol n = [] := by
      unfold DF.getCol
      rw [hfind]
      rfl
    rw [hget]
    simp [Model.applyMask]
  | some c =>
    have hget : df.getCol n = c.2 := by
      unfold DF.getCol
      rw [hfind]
      rfl
    rw [hget]
    rfl

theorem cols_filterNotNull (df : DF) (cn : String) :
    DF.cols (Model.filterNotNull df cn) = df.cols := by
  simp only [Model.filterNotNull]
  exact @cols_map_eq (fun c => (c.1, Model.applyMask
    ((df.getCol cn).map (fun x => decide (x ≠ CVal.null))) c.2)) (fun c => rfl) df

theorem mem_applyMask {x : CVal} : ∀ (m : List Bool) (l : List CVal),
    x ∈ Model.applyMask m l → x ∈ l := by
  intro m
  induction m with
  | nil =>
    intro l h
    simp [Model.applyMask] at h
  | cons b bs ih =>
    intro l h
    cases l with
    | nil => simp [Model.applyMask] at h
    | cons a as =>
      cases b with
      | false =>
        have hh : Model.applyMask (false :: bs) (a :: as) = Model.applyMask bs as := rfl
        rw [hh] at h
        exact List.mem_cons_of_mem a (ih as h)
      | true =>
        have hh : Model.applyMask (true :: bs) (a :: as)
            = a :: Model.applyMask bs as := rfl
        rw [hh] at h
        rcases List.mem_cons.mp h with h1 | h1
        · exact h1 ▸ List.mem_cons_self a as
        · exact List.mem_cons_of_mem a (ih as h1)

theorem applyMask_self_no_null : ∀ l : List CVal,
    CVal.null ∉ Model.applyMask (l.map (fun c => decide (c ≠ CVal.null))) l := by
  intro l
  induction l with
  | nil => simp [Model.applyMask]
  | cons a as ih =>
    by_cases ha : a = CVal.null
    · subst ha
      have hh : Model.applyMask
          ((CVal.null :: as).map (fun c => decide (c ≠ CVal.null))) (CVal.null :: as)
          = Model.applyMask (as.map (fun c => decide (c ≠ CVal.null))) as := by
        rw [List.map_cons]
        rfl
      rw [hh]
      exact ih
    · have hh : Model.applyMask
          ((a :: as).map (fun c => decide (c ≠ CVal.null))) (a :: as)
          = a :: Model.applyMask (as.map (fun c => decide (c ≠ CVal.null))) as := by
        rw [List.map_cons]
        simp only [Model.applyMask, List.zip_cons_cons, List.filterMap_cons, ha,
          decide_not, decide_eq_true_eq]
        simp [ha]
      rw [hh]
      intro hmem
      rcases List.mem_cons.mp hmem with h1 | h1
      · exact ha h1.symm
      · exact ih h1

theorem setCol_name (n : String) (cells : List CVal) :
    ∀ c : String × List CVal,
      ((if c.1 = n then (c.1, cells) else c) : String × List CVal).1 = c.1 := by
  intro c
  split
  · rfl
  · rfl

theorem getCol_setCol_self {df : DF} {n : String} (cells : List CVal) :
    DF.getCol (setCol df n cells) n = cells := by
  unfold setCol
  by_cases hmem : n ∈ df.cols
  · rw [if_pos hmem]
    rw [@getCol_map_eq (fun c => if c.1 = n then (c.1, cells) else c)
      (setCol_name n cells) df n]
    obtain ⟨c, hc, hcn⟩ := List.mem_map.mp hmem
    have hfind : (df.find? (fun c => decide (c.1 = n))).isSome := by
      rw [List.find?_isSome]
      exact ⟨c, hc, by simp [hcn]⟩
    obtain ⟨c', hc'⟩ := Option.isSome_iff_exists.mp hfind
    have hcn' : c'.1 = n := by simpa using List.find?_some hc'
    rw [hc']
    simp [hcn']
  · rw [if_neg hmem]
    unfold DF.getCol
    rw [List.find?_append]
    have h1 : df.find? (fun c => decide (c.1 = n)) = none := by
      rw [List.find?_eq_none]
      intro c hc
      simp only [decide_eq_true_eq]
      intro h1
      exact hmem (h1 ▸ List.mem_map.mpr ⟨c, hc, rfl⟩)
    rw [h1]
    simp

theorem getCol_setCol_other {df : DF} {n m : String} (cells : List CVal)
    (hne : m ≠ n) : DF.getCol (setCol df n cells) m = df.getCol m := by
  unfold setCol
  by_cases hmem : n ∈ df.cols
  · rw [if_pos hmem]
    rw [@getCol_map_eq (fun c => if c.1 = n then (c.1, cells) else c)
      (setCol_name n cells) df m]
    unfold DF.getCol
    cases hfind : df.find? (fun c => decide (c.1 = m)) with
    | none => rfl
    | some c =>
      have hcm : c.1 = m := by simpa using List.find?_some hfind
      simp [hcm, hne]
  · rw [if_neg hmem]
    unfold DF.getCol
    rw [List.find?_append]
    cases hfind : df.find? (fun c => decide (c.1 = m)) with
    | none =>
      rw [List.find?_singleton]
      rw [if_neg (show ¬ decide ((n, cells).1 = m) = true by
        simp only [decide_eq_true_eq]
        exact fun h => hne (Eq.symm h))]
      rfl
    | some c => rfl

theorem cols_setCol (df : DF) (n : String) (cells : List CVal) :
    DF.cols (setCol df n cells) = if n ∈ df.cols then df.cols else df.cols ++ [n] := by
  unfold setCol
  split
  · exact @cols_map_eq (fun c => if c.1 = n then (c.1, cells) else c)
      (setCol_name n cells) df
  · unfold DF.cols
    simp

theorem nullCount_eq_zero {df : DF} {n : String}
    (h : CVal.null ∉ df.getCol n) : Model.nullCount df n = 0 := by
  unfold Model.nullCount
  rw [List.length_eq_zero, List.filter_eq_nil_iff]
  intro c hc
  simp only [decide_eq_true_eq]
  intro he
  exact h (he ▸ hc)

theorem no_null_of_nullCount_zero {df : DF} {n : String}
    (h : Model.nullCount df n = 0) : CVal.null ∉ df.getCol n := by
  unfold Model.nullCount at h
  rw [List.length_eq_zero, List.filter_eq_nil_iff] at h
  intro hmem
  exact absurd (by simp : decide (CVal.null = CVal.null) = true) (by simpa using h _ hmem)

theorem nullFilterStep_eq_self {df : DF}
    (h : ∀ c ∈ Model.criticalColumns, CVal.null ∉ df.getCol c) :
    Model.nullFilterStep df = df := by
  simp only [Model.nullFilterStep]
  have hz : ((Model.criticalColumns.filter (fun c => decide (c ∈ df.cols))).map
      (fun c => Model.nullCount df c)).sum = 0 := by
    apply List.sum_eq_zero
    intro x hx
    rw [List.mem_map] at hx
    obtain ⟨c, hc, rfl⟩ := hx
    exact nullCount_eq_zero (h c (List.mem_of_mem_filter hc))
  rw [hz]
  simp

theorem no_null_filterNotNull_self (df : DF) (c : String) :
    CVal.null ∉ DF.getCol (Model.filterNotNull df c) c := by
  rw [getCol_filterNotNull]
  exact applyMask_self_no_null _

theorem no_null_filterNotNull_pres {df : DF} {c : String} (c' : String)
    (h : CVal.null ∉ df.getCol c) :
    CVal.null ∉ DF.getCol (Model.filterNotNull df c') c := by
  rw [getCol_filterNotNull]
  intro hmem
  exact h (mem_applyMask _ _ hmem)

theorem no_null_foldl_pres {c : String} :
    ∀ (L : List String) (df : DF), CVal.null ∉ df.getCol c →
      CVal.null ∉ DF.getCol (L.foldl Model.filterNotNull df) c := by
  intro L
  induction L with
  | nil => intro df h; exact h
  | cons x xs ih =>
    intro df h
    exact ih (Model.filterNotNull df x) (no_null_filterNotNull_pres x h)

theorem no_null_foldl_mem {c : String} :
    ∀ (L : List String) (df : DF), c ∈ L →
      CVal.null ∉ DF.getCol (L.foldl Model.filterNotNull df) c := by
  intro L
  induction L with
  | nil => intro df h; cases h
  | cons x xs ih =>
    intro df h
    rcases List.mem_cons.mp h with rfl | hxs
    · exact no_null_foldl_pres xs (Model.filterNotNull df c)
        (no_null_filterNotNull_self df c)
    · exact ih (Model.filterNotNull df x) hxs

theorem cols_foldl_filterNotNull :
    ∀ (L : List String) (df : DF),
      DF.cols (L.foldl Model.filterNotNull df) = df.cols := by
  intro L
  induction L with
  | nil => intro df; rfl
  | cons x xs ih =>
    intro df
    rw [List.foldl_cons, ih, cols_filterNotNull]

theorem nullFilterStep_no_null (df : DF) :
    ∀ c ∈ Model.criticalColumns, CVal.null ∉ DF.getCol (Model.nullFilterStep df) c := by
  intro c hc
  simp only [Model.nullFilterStep]
  split
  · next htot =>
    by_cases hmem : c ∈ df.cols
    · exact no_null_foldl_mem _ df (List.mem_filter.mpr ⟨hc, by simpa using hmem⟩)
    · have : c ∉ DF.cols ((Model.criticalColumns.filter
          (fun c => decide (c ∈ df.cols))).foldl Model.filterNotNull df) := by
        rw [cols_foldl_filterNotNull]
        exact hmem
      rw [getCol_eq_nil_of_not_mem this]
      simp
  · next htot =>
    by_cases hmem : c ∈ df.cols
    · have hz : Model.nullCount df c = 0 := by
        have hsum : ((Model.criticalColumns.filter (fun c => decide (c ∈ df.cols))).map
            (fun c => Model.nullCount df c)).sum = 0 := by omega
        have := (List.sum_eq_zero_iff.mp hsum) (Model.nullCount df c)
          (List.mem_map.mpr ⟨c, List.mem_filter.mpr ⟨hc, by simpa using hmem⟩, rfl⟩)
        exact this
      exact no_null_of_nullCount_zero hz
    · rw [getCol_eq_nil_of_not_mem hmem]
      simp

theorem char_toNat_ofNat {n : ℕ} (h : n < 55296) : (Char.ofNat n).toNat = n := by
  unfold Char.ofNat
  rw [dif_pos (Or.inl h)]
  rfl

theorem toLower_toLower (c : Char) : c.toLower.toLower = c.toLower := by
  simp only [Char.toLower]
  by_cases h : c.toNat ≥ 65 ∧ c.toNat ≤ 90
  · rw [if_pos h]
    have ht : (Char.ofNat (c.toNat + 32)).toNat = c.toNat + 32 :=
      char_toNat_ofNat (by omega)
    rw [if_neg (by rw [ht]; omega)]
  · rw [if_neg h, if_neg h]

theorem toLower_ne_space {c : Char} (h : c ≠ ' ') : c.toLower ≠ ' ' := by
  simp only [Char.toLower]
  by_cases h1 : c.toNat ≥ 65 ∧ c.toNat ≤ 90
  · rw [if_pos h1]
    intro he
    have h2 := congrArg Char.toNat he
    rw [char_toNat_ofNat (by omega)] at h2
    have h3 : (' ').toNat = 32 := rfl
    omega
  · rw [if_neg h1]
    exact h

theorem normChar_normChar (c : Char) : normChar (normChar c) = normChar c := by
  unfold normChar
  by_cases hsp : c = ' '
  · subst hsp
    decide
  · rw [if_neg hsp, if_neg (toLower_ne_space hsp), toLower_toLower]

theorem normalizeName_idem (s : String) :
    normalizeName (normalizeName s) = normalizeName s := by
  unfold normalizeName
  refine congrArg String.mk ?_
  show (s.data.map normChar).map normChar = s.data.map normChar
  rw [List.map_map]
  refine List.map_congr_left ?_
  intro c _
  exact normChar_normChar c

theorem cols_renameStep (df : DF) :
    DF.cols (Model.renameStep df) = df.cols.map normalizeName := by
  unfold Model.renameStep DF.cols
  rw [List.map_map, List.map_map]
  rfl

theorem norm_cols_renameStep (df : DF) :
    ∀ n ∈ DF.cols (Model.renameStep df), normalizeName n = n := by
  intro n hn
  rw [cols_renameStep] at hn
  obtain ⟨m, _, rfl⟩ := List.mem_map.mp hn
  exact normalizeName_idem m

theorem renameStep_eq_self {df : DF} (h : ∀ n ∈ df.cols, normalizeName n = n) :
    Model.renameStep df = df := by
  unfold Model.renameStep
  conv_rhs => rw [← List.map_id df]
  refine List.map_congr_left ?_
  intro c hc
  show (normalizeName c.1, c.2) = c
  rw [h c.1 (List.mem_map.mpr ⟨c, hc, rfl⟩)]

theorem cols_totalValueStep (df : DF) :
    ∀ n ∈ DF.cols (Model.totalValueStep df), n ∈ df.cols ∨ n = "total_value" := by
  intro n hn
  unfold Model.totalValueStep at hn
  split at hn
  · split at hn
    · rw [cols_setCol] at hn
      split at hn
      · exact Or.inl hn
      · rcases List.mem_append.mp hn with h | h
        · exact Or.inl h
        · exact Or.inr (by simpa using h)
    · split at hn
      · split at hn
        · rw [cols_setCol] at hn
          split at hn
          · exact Or.inl hn
          · rcases List.mem_append.mp hn with h | h
            · exact Or.inl h
            · exact Or.inr (by simpa using h)
        · exact Or.inl hn
      · exact Or.inl hn
  · exact Or.inl hn

theorem getCol_totalValueStep_other (df : DF) {n : String} (hn : n ≠ "total_value") :
    DF.getCol (Model.totalValueStep df) n = df.getCol n := by
  unfold Model.totalValueStep
  split
  · split
    · rw [getCol_setCol_other _ hn]
    · split
      · split
        · rw [getCol_setCol_other _ hn]
        · rfl
      · rfl
  · rfl

theorem nrows_map_mem {g : String × List CVal → String × List CVal} {df : DF}
    (hg : ∀ c ∈ df, (g c).2.length = c.2.length) :
    DF.nrows (df.map g) = df.nrows := by
  cases df with
  | nil => rfl
  | cons c t => exact hg c (List.mem_cons_self c t)

theorem wf_map {g : String × List CVal → String × List CVal} {df : DF}
    (hg : ∀ c ∈ df, (g c).2.length = c.2.length) (hwf : df.WF) :
    DF.WF (df.map g) := by
  intro c' hc'
  obtain ⟨c, hc, rfl⟩ := List.mem_map.mp hc'
  rw [hg c hc, hwf c hc, nrows_map_mem hg]

theorem wf_renameStep {df : DF} (hwf : df.WF) : DF.WF (Model.renameStep df) :=
  wf_map (fun c _ => rfl) hwf

theorem nrows_renameStep (df : DF) : DF.nrows (Model.renameStep df) = df.nrows :=
  nrows_map_mem (fun c _ => rfl)

theorem wf_dateStep {df : DF} (conv : String → CVal → CVal) (hwf : df.WF) :
    DF.WF (Model.dateStep conv df) := by
  refine wf_map ?_ hwf
  intro c _
  split
  · exact List.length_map _ _
  · rfl

theorem nrows_dateStep (conv : String → CVal → CVal) (df : DF) :
    DF.nrows (Model.dateStep conv df) = df.nrows := by
  refine nrows_map_mem ?_
  intro c _
  split
  · exact List.length_map _ _
  · rfl

theorem nrows_append_single (df : DF) (x : String × List CVal) (h : df ≠ []) :
    DF.nrows (df ++ [x]) = df.nrows := by
  cases df with
  | nil => exact absurd rfl h
  | cons c t => rfl

theorem nrows_setCol {df : DF} {n : String} {cells : List CVal}
    (hlen : cells.length = df.nrows) (hne : df ≠ []) :
    DF.nrows (setCol df n cells) = df.nrows := by
  unfold setCol
  split
  · cases df with
    | nil => exact absurd rfl hne
    | cons c t =>
      show (if c.1 = n then (c.1, cells) else c).2.length = _
      by_cases hc : c.1 = n
      · rw [if_pos hc]
        exact hlen
      · rw [if_neg hc]
        rfl
  · exact nrows_append_single df _ hne

theorem wf_setCol {df : DF} {n : String} {cells : List CVal}
    (hlen : cells.length = df.nrows) (hwf : df.WF) :
    DF.WF (setCol df n cells) := by
  by_cases hne : df = []
  · subst hne
    intro c hc
    simp [setCol, DF.cols] at hc
    subst hc
    rfl
  · intro c' hc'
    unfold setCol at hc'
    rw [nrows_setCol hlen hne]
    split at hc'
    · obtain ⟨c, hc, rfl⟩ := List.mem_map.mp hc'
      by_cases hcn : c.1 = n
      · show (if c.1 = n then (c.1, cells) else c).2.length = _
        rw [if_pos hcn]
        exact hlen
      · show (if c.1 = n then (c.1, cells) else c).2.length = _
        rw [if_neg hcn]
        exact hwf c hc
    · rcases List.mem_append.mp hc' with h | h
      · exact hwf c' h
      · have : c' = (n, cells) := by simpa using h
        subst this
        exact hlen

theorem wf_totalValueStep {df : DF} (hwf : df.WF) :
    DF.WF (Model.totalValueStep df) := by
  unfold Model.totalValueStep
  split
  · next hpq =>
    have hlen : (zipMul (df.getCol "price") (df.getCol "quantity")).length
        = df.nrows := by
      unfold zipMul
      rw [List.length_map, List.length_zip,
        getCol_length_of_WF hwf hpq.1, getCol_length_of_WF hwf hpq.2]
      exact Nat.min_self _
    split
    · exact wf_setCol hlen hwf
    · split
      · split
        · exact wf_setCol hlen hwf
        · exact hwf
      · exact hwf
  · exact hwf

theorem nrows_totalValueStep {df : DF} (hwf : df.WF) :
    DF.nrows (Model.totalValueStep df) = df.nrows := by
  unfold Model.totalValueStep
  split
  · next hpq =>
    have hne : df ≠ [] := by
      intro h
      subst h
      simp [DF.cols] at hpq
    have hlen : (zipMul (df.getCol "price") (df.getCol "quantity")).length
        = df.nrows := by
      unfold zipMul
      rw [List.length_map, List.length_zip,
        getCol_length_of_WF hwf hpq.1, getCol_length_of_WF hwf hpq.2]
      exact Nat.min_self _
    split
    · exact nrows_setCol hlen hne
    · split
      · split
        · exact nrows_setCol hlen hne
        · rfl
      · rfl
  · rfl

theorem applyMask_length_eq (m : List Bool) :
    ∀ {l₁ l₂ : List CVal}, l₁.length = l₂.length →
      (Model.applyMask m l₁).length = (Model.applyMask m l₂).length := by
  induction m with
  | nil =>
    intro l₁ l₂ _
    rfl
  | cons b bs ih =>
    intro l₁ l₂ h
    cases l₁ with
    | nil =>
      cases l₂ with
      | nil => rfl
      | cons a2 as2 => simp at h
    | cons a as =>
      cases l₂ with
      | nil => simp at h
      | cons a2 as2 =>
        have h' : as.length = as2.length := by simpa using h
        cases b with
        | false =>
          show (Model.applyMask bs as).length = (Model.applyMask bs as2).length
          exact ih h'
        | true =>
          show (a :: Model.applyMask bs as).length
              = (a2 :: Model.applyMask bs as2).length
          simp [ih h']

theorem wf_filterNotNull {df : DF} (hwf : df.WF) (cn : String) :
    DF.WF (Model.filterNotNull df cn) := by
  intro c' hc'
  simp only [Model.filterNotNull] at hc' ⊢
  obtain ⟨c, hc, rfl⟩ := List.mem_map.mp hc'
  cases df with
  | nil => cases hc
  | cons c0 t =>
    show (Model.applyMask _ c.2).length = (Model.applyMask _ c0.2).length
    refine applyMask_length_eq _ ?_
    rw [hwf c hc]
    rfl

theorem wf_foldl_filterNotNull :
    ∀ (L : List String) {df : DF}, df.WF → DF.WF (L.foldl Model.filterNotNull df) := by
  intro L
  induction L with
  | nil => intro df h; exact h
  | cons x xs ih =>
    intro df h
    exact ih (wf_filterNotNull h x)

theorem wf_nullFilterStep {df : DF} (hwf : df.WF) :
    DF.WF (Model.nullFilterStep df) := by
  simp only [Model.nullFilterStep]
  split
  · exact wf_foldl_filterNotNull _ hwf
  · exact hwf

theorem cols_nullFilterStep (df : DF) :
    DF.cols (Model.nullFilterStep df) = df.cols := by
  simp only [Model.nullFilterStep]
  split
  · exact cols_foldl_filterNotNull _ df
  · rfl

theorem mem_cols_totalValueStep {df : DF} {n : String} (h : n ∈ df.cols) :
    n ∈ DF.cols (Model.totalValueStep df) := by
  unfold Model.totalValueStep
  split
  · split
    · rw [cols_setCol]
      split
      · exact h
      · exact List.mem_append_left _ h
    · split
      · split
        · rw [cols_setCol]
          split
          · exact h
          · exact List.mem_append_left _ h
        · exact h
      · exact h
  · exact h

theorem processSalesData_of_early {conv : String → CVal → CVal} {df : DF}
    (h : df.nrows = 0 ∨ df = []) : Model.processSalesData conv df = .ok df := by
  unfold Model.processSalesData
  rw [if_pos h]

theorem processSalesData_of_main {conv : String → CVal → CVal} {df : DF}
    (h : ¬ (df.nrows = 0 ∨ df = [])) :
    Model.processSalesData conv df
      = Model.validateNumericStep (Model.pipelineCore conv df) := by
  unfold Model.processSalesData
  rw [if_neg h]

theorem mem_cols_pipelineCore {conv : String → CVal → CVal} {df : DF} {n : String}
    (hnames : ∀ m ∈ df.cols, normalizeName m = m) (h : n ∈ df.cols) :
    n ∈ DF.cols (Model.pipelineCore conv df) := by
  unfold Model.pipelineCore
  rw [cols_nullFilterStep, renameStep_eq_self hnames]
  exact mem_cols_totalValueStep (by rw [cols_dateStep]; exact h)

/-- C2: on the claim's whole domain — `price`, `quantity` and a
pre-existing `total_value` column all present (names already
normalized) — `process_sales_data` raises `AttributeError` in step 5
(`pl.datatypes.is_numeric` is not an attribute of `polars.datatypes`
in any release, and its call sits outside any `try`), so the
reconciled frame is never returned (first conjunct).  Internally,
steps 1-4 do recompute the whole `total_value` column as
`price × quantity` exactly when `max(total_value) >
max(price) × max(quantity) × 2.0` and keep the stored column
otherwise (second conjunct) — but that frame only ever reaches the
crashing step 5. -/
theorem C2_reconciliacao_inatingivel :
    (∀ (conv : String → CVal → CVal) (df : DF),
        df.nrows ≠ 0 → df ≠ [] →
        (∀ n ∈ df.cols, normalizeName n = n) →
        "price" ∈ df.cols → "quantity" ∈ df.cols → "total_value" ∈ df.cols →
        Model.processSalesData conv df = .error .atributoIsNumeric)
    ∧ (∀ (conv : String → CVal → CVal) (df : DF),
        (∀ n ∈ df.cols, normalizeName n = n) →
        "price" ∈ df.cols → "quantity" ∈ df.cols → "total_value" ∈ df.cols →
        ∀ mt mp mq : ℚ,
        colMax (df.getCol "total_value") = some mt →
        colMax (df.getCol "price") = some mp →
        colMax (df.getCol "quantity") = some mq →
        (∀ c ∈ Model.criticalColumns, CVal.null ∉ df.getCol c) →
        DF.getCol (Model.pipelineCore conv df) "total_value"
          = if mt > mp * mq * 2
            then zipMul (df.getCol "price") (df.getCol "quantity")
            else df.getCol "total_value") := by
  constructor
  · intro conv df hnr hne hnames hp _hq _ht
    rw [processSalesData_of_main (by
      intro hcase
      rcases hcase with h | h
      · exact hnr h
      · exact hne h)]
    unfold Model.validateNumericStep
    rw [if_pos (List.any_eq_true.mpr
      ⟨"price", by decide, by
        simpa using mem_cols_pipelineCore hnames hp⟩)]
  · intro conv df hnames hp hq ht mt mp mq hmt hmp hmq hcrit
    have hdC : ∀ c ∈ Model.criticalColumns,
        isDateColName c = false ∧ c ≠ "total_value" := by decide
    unfold Model.pipelineCore
    rw [renameStep_eq_self hnames]
    set d2 := Model.dateStep conv df with hd2
    have hgP : DF.getCol d2 "price" = df.getCol "price" := by
      rw [hd2, getCol_dateStep]
      rw [show isDateColName "price" = false by decide]
      rfl
    have hgQ : DF.getCol d2 "quantity" = df.getCol "quantity" := by
      rw [hd2, getCol_dateStep]
      rw [show isDateColName "quantity" = false by decide]
      rfl
    have hgT : DF.getCol d2 "total_value" = df.getCol "total_value" := by
      rw [hd2, getCol_dateStep]
      rw [show isDateColName "total_value" = false by decide]
      rfl
    have hcols2 : DF.cols d2 = df.cols := by
      rw [hd2, cols_dateStep]
    have hcrit2 : ∀ c ∈ Model.criticalColumns, CVal.null ∉ DF.getCol d2 c := by
      intro c hc
      rw [hd2, getCol_dateStep, (hdC c hc).1]
      exact hcrit c hc
    unfold Model.totalValueStep
    rw [if_pos (show "price" ∈ DF.cols d2 ∧ "quantity" ∈ DF.cols d2 by
      rw [hcols2]
      exact ⟨hp, hq⟩)]
    rw [if_neg (show ¬ "total_value" ∉ DF.cols d2 by
      rw [hcols2]
      exact fun hno => hno ht)]
    rw [hgT, hgP, hgQ, hmt, hmp, hmq]
    show DF.getCol (Model.nullFilterStep
      (if mt > mp * mq * Model.anomalyThreshold
       then setCol d2 "total_value" (zipMul (df.getCol "price") (df.getCol "quantity"))
       else d2)) "total_value" = _
    rw [show Model.anomalyThreshold = 2 from rfl]
    by_cases hcond : mt > mp * mq * 2
    · rw [if_pos hcond, if_pos hcond]
      have hcrit4 : ∀ c ∈ Model.criticalColumns, CVal.null ∉ DF.getCol
          (setCol d2 "total_value" (zipMul (df.getCol "price") (df.getCol "quantity"))) c := by
        intro c hc
        rw [getCol_setCol_other _ (hdC c hc).2]
        exact hcrit2 c hc
      rw [nullFilterStep_eq_self hcrit4]
      rw [getCol_setCol_self]
    · rw [if_neg hcond, if_neg hcond]
      rw [nullFilterStep_eq_self hcrit2]
      exact hgT

/-- C5: `process_sales_data` cannot be re-applied to its own output on
the claim's domain, because the first pass already raises
`AttributeError` in step 5 on any table that (after normalization)
carries one of price/quantity/total_value/shipping_cost — including
every table this project's own generator produces; `dfNulos`, with a
`total_value` column and a null `order_id`, is a concrete such input
(second conjunct).  On the tables the function does return — those
without the four step-5 columns — row-count idempotence holds: the
first pass leaves no nulls in the present critical identifier columns
and normalizes every name, so a second pass with any date-conversion
behaviour returns a frame of the same row count (first conjunct). -/
theorem C5_idempotencia_parcial :
    (∀ (conv convSegunda : String → CVal → CVal) (df out : DF),
        df.WF →
        Model.processSalesData conv df = .ok out →
        ∃ out2, Model.processSalesData convSegunda out = .ok out2
          ∧ DF.nrows out2 = DF.nrows out)
    ∧ Model.processSalesData convId dfNulos = .error .atributoIsNumeric := by
  constructor
  · intro conv conv2 df out hwf hok
    have hdC : ∀ c ∈ Model.criticalColumns,
        isDateColName c = false ∧ c ≠ "total_value" := by decide
    by_cases hearly : df.nrows = 0 ∨ df = []
    · rw [processSalesData_of_early hearly] at hok
      have hout := Except.ok.inj hok
      subst hout
      exact ⟨df, processSalesData_of_early hearly, rfl⟩
    · rw [processSalesData_of_main hearly] at hok
      unfold Model.validateNumericStep at hok
      by_cases hguard : Model.nonNegativeColumns.any
          (fun c => decide (c ∈ DF.cols (Model.pipelineCore conv df))) = true
      · rw [if_pos hguard] at hok
        exact absurd hok (by simp)
      rw [if_neg hguard] at hok
      have hout := Except.ok.inj hok
      subst hout
      set d1 := Model.pipelineCore conv df with hd1
      have hnone : ∀ c ∈ Model.nonNegativeColumns, c ∉ DF.cols d1 := by
        intro c hc hmem
        exact hguard (List.any_eq_true.mpr ⟨c, hc, by simpa using hmem⟩)
      have hwf1 : d1.WF := by
        rw [hd1]
        unfold Model.pipelineCore
        exact wf_nullFilterStep (wf_totalValueStep (wf_dateStep conv (wf_renameStep hwf)))
      have hnames1 : ∀ n ∈ DF.cols d1, normalizeName n = n := by
        intro n hn
        rw [hd1] at hn
        unfold Model.pipelineCore at hn
        rw [cols_nullFilterStep] at hn
        rcases cols_totalValueStep _ n hn with h1 | h1
        · rw [cols_dateStep] at h1
          exact norm_cols_renameStep df n h1
        · rw [h1]
          decide
      have hcrit1 : ∀ c ∈ Model.criticalColumns, CVal.null ∉ DF.getCol d1 c := by
        rw [hd1]
        unfold Model.pipelineCore
        exact nullFilterStep_no_null _
      by_cases h2 : d1.nrows = 0 ∨ d1 = []
      · exact ⟨d1, processSalesData_of_early h2, rfl⟩
      · have hcolsd3 : DF.cols (Model.dateStep conv2 d1) = DF.cols d1 :=
          cols_dateStep conv2 d1
        have hcrit3 : ∀ c ∈ Model.criticalColumns,
            CVal.null ∉ DF.getCol (Model.dateStep conv2 d1) c := by
          intro c hc
          rw [getCol_dateStep, (hdC c hc).1]
          exact hcrit1 c hc
        have hpipe : Model.pipelineCore conv2 d1 = Model.dateStep conv2 d1 := by
          unfold Model.pipelineCore
          rw [renameStep_eq_self hnames1]
          have hptv : Model.totalValueStep (Model.dateStep conv2 d1)
              = Model.dateStep conv2 d1 := by
            unfold Model.totalValueStep
            rw [if_neg (fun hcase =>
              hnone "price" (by decide) (hcolsd3 ▸ hcase.1))]
          rw [hptv]
          exact nullFilterStep_eq_self hcrit3
        refine ⟨Model.dateStep conv2 d1, ?_, nrows_dateStep conv2 d1⟩
        rw [processSalesData_of_main h2, hpipe]
        unfold Model.validateNumericStep
        rw [if_neg (fun hany => by
          obtain ⟨c, hc, hcd⟩ := List.any_eq_true.mp hany
          exact hnone c hc (hcolsd3 ▸ (by simpa using hcd)))]
  · rfl

/-- C2 witness: the concrete anomalous table (stored total 100 against
max(price)=2, max(quantity)=3) makes the call raise, not return. -/
theorem C2_reconciliacao_inatingivel_witness :
    Model.processSalesData convId dfAnomalia = .error .atributoIsNumeric :=
  C2_reconciliacao_inatingivel.1 convId dfAnomalia (by decide) (by decide)
    (by decide) (by decide) (by decide) (by decide)

/-- C5 witness: a table with only an `order_id` column survives both
passes with its row count intact. -/
theorem C5_idempotencia_parcial_witness :
    ∃ out2, Model.processSalesData convId dfSimples = .ok out2
      ∧ DF.nrows out2 = DF.nrows dfSimples :=
  C5_idempotencia_parcial.1 convId convId dfSimples dfSimples (by decide) rfl


end Ecom

open Ecom
namespace Ecom

theorem cellWeight_numSum (l : List CVal) :
    numSum l = (l.map (fun c => (asNum c).getD 0)).sum := by
  induction l with
  | nil => rfl
  | cons a as ih =>
    unfold numSum at ih ⊢
    rw [List.filterMap_cons, List.map_cons, List.sum_cons]
    cases ha : asNum a with
    | none => simp [ih]
    | some q => simp [ih]

theorem sum_ite_single {κ : Type} [DecidableEq κ] (c : ℚ) (x : κ) :
    ∀ keys : List κ, keys.Nodup → x ∈ keys →
      (keys.map (fun k => if x = k then c else 0)).sum = c := by
  intro keys
  induction keys with
  | nil =>
    intro _ h
    cases h
  | cons k ks ih =>
    intro hnd hmem
    rw [List.nodup_cons] at hnd
    rw [List.map_cons, List.sum_cons]
    by_cases hx : x = k
    · rw [if_pos hx]
      have hz : (ks.map (fun k => if x = k then c else 0)).sum = 0 := by
        apply List.sum_eq_zero
        intro y hy
        rw [List.mem_map] at hy
        obtain ⟨k', hk', rfl⟩ := hy
        rw [if_neg ?_]
        intro he
        rw [hx] at he
        rw [← he] at hk'
        exact hnd.1 hk'
      rw [hz, add_zero]
    · rw [if_neg hx, zero_add]
      exact ih hnd.2 ((List.mem_cons.mp hmem).resolve_left hx)

theorem sum_groups {α κ : Type} [DecidableEq κ] (key : α → κ) (f : α → ℚ) :
    ∀ (l : List α) (keys : List κ), keys.Nodup → (∀ a ∈ l, key a ∈ keys) →
      (keys.map (fun k => ((l.filter (fun a => decide (key a = k))).map f).sum)).sum
        = (l.map f).sum := by
  intro l
  induction l with
  | nil =>
    intro keys _ _
    simp
  | cons a t ih =>
    intro keys hnd hcov
    have hstep : ∀ k : κ, ((List.filter (fun b => decide (key b = k)) (a :: t)).map f).sum
        = (if key a = k then f a else 0)
          + ((t.filter (fun b => decide (key b = k))).map f).sum := by
      intro k
      rw [List.filter_cons]
      by_cases h : key a = k
      · simp [h]
      · simp [h]
    calc (keys.map (fun k => ((List.filter (fun b => decide (key b = k)) (a :: t)).map f).sum)).sum
        = (keys.map (fun k => (if key a = k then f a else 0)
            + ((t.filter (fun b => decide (key b = k))).map f).sum)).sum := by
          refine congrArg List.sum ?_
          exact List.map_congr_left (fun k _ => hstep k)
      _ = (keys.map (fun k => if key a = k then f a else 0)).sum
            + (keys.map (fun k => ((t.filter (fun b => decide (key b = k))).map f).sum)).sum := by
          rw [← List.sum_map_add]
      _ = f a + (t.map f).sum := by
          rw [sum_ite_single (f a) (key a) keys hnd (hcov a (List.mem_cons_self a t)),
            ih keys hnd (fun b hb => hcov b (List.mem_cons_of_mem a hb))]
      _ = ((a :: t).map f).sum := by
          rw [List.map_cons, List.sum_cons]

theorem conservation_core {κ : Type} [DecidableEq κ] (keys : List κ)
    (cells : List CVal) (hlen : keys.length = cells.length) :
    ((keys.dedup).map (fun k => numSum (Controller.selBy keys k cells))).sum
      = numSum cells := by
  have hsel : ∀ k, numSum (Controller.selBy keys k cells)
      = (((keys.zip cells).filter (fun p => decide (p.1 = k))).map
          (fun p => (asNum p.2).getD 0)).sum := by
    intro k
    unfold Controller.selBy
    rw [cellWeight_numSum, List.map_map]
    rfl
  calc ((keys.dedup).map (fun k => numSum (Controller.selBy keys k cells))).sum
      = ((keys.dedup).map (fun k => (((keys.zip cells).filter
          (fun p => decide (p.1 = k))).map (fun p => (asNum p.2).getD 0)).sum)).sum := by
        refine congrArg List.sum ?_
        exact List.map_congr_left (fun k _ => hsel k)
    _ = ((keys.zip cells).map (fun p => (asNum p.2).getD 0)).sum := by
        refine sum_groups Prod.fst (fun p => (asNum p.2).getD 0) (keys.zip cells)
          keys.dedup keys.nodup_dedup ?_
        intro p hp
        exact List.mem_dedup.mpr (List.of_mem_zip hp).1
    _ = numSum cells := by
        rw [cellWeight_numSum]
        refine congrArg List.sum ?_
        have : (keys.zip cells).map (fun p => (asNum p.2).getD 0)
            = ((keys.zip cells).map Prod.snd).map (fun c => (asNum c).getD 0) := by
          rw [List.map_map]
          rfl
        rw [this, List.map_snd_zip keys cells (le_of_eq hlen.symm)]

theorem round2_abs_sub (x : ℚ) : |round2 x - x| ≤ 1 / 200 := by
  unfold round2
  have h := abs_sub_round (x * 100)
  rw [abs_sub_comm] at h
  have heq : (round (x * 100) : ℚ) / 100 - x = ((round (x * 100) : ℚ) - x * 100) / 100 := by
    ring
  rw [heq, abs_div]
  rw [show |(100 : ℚ)| = 100 by norm_num]
  linarith

theorem sum_map_round2_near : ∀ l : List ℚ,
    |(l.map round2).sum - l.sum| ≤ (l.length : ℚ) / 200 := by
  intro l
  induction l with
  | nil => simp
  | cons a t ih =>
    rw [List.map_cons, List.sum_cons, List.sum_cons, List.length_cons]
    have h1 : round2 a + (t.map round2).sum - (a + t.sum)
        = (round2 a - a) + ((t.map round2).sum - t.sum) := by ring
    rw [h1]
    calc |(round2 a - a) + ((t.map round2).sum - t.sum)|
        ≤ |round2 a - a| + |(t.map round2).sum - t.sum| := abs_add _ _
      _ ≤ 1 / 200 + (t.length : ℚ) / 200 := add_le_add (round2_abs_sub a) ih
      _ = ((t.length + 1 : ℕ) : ℚ) / 200 := by
          push_cast
          ring

theorem pct_sum_bound (vs : List ℚ) (hT : vs.sum ≠ 0) :
    |(vs.map (fun v => round2 (v / vs.sum * 100))).sum - 100|
      ≤ (vs.length : ℚ) / 200 := by
  have hmm : vs.map (fun v => round2 (v / vs.sum * 100))
      = (vs.map (fun v => v / vs.sum * 100)).map round2 := by
    rw [List.map_map]
    rfl
  have hsum : (vs.map (fun v => v / vs.sum * 100)).sum = 100 := by
    have h1 : vs.map (fun v => v / vs.sum * 100)
        = vs.map (fun v => v * (100 / vs.sum)) := by
      refine List.map_congr_left ?_
      intro v _
      ring
    rw [h1]
    rw [show (fun v => v * (100 / vs.sum)) = (fun v => id v * (100 / vs.sum)) from rfl]
    rw [List.sum_map_mul_right, List.map_id]
    field_simp
  have h2 := sum_map_round2_near (vs.map (fun v => v / vs.sum * 100))
  rw [hsum, List.length_map] at h2
  rw [hmm]
  exact h2


theorem sortBy_map_sum {α : Type} (le : α → α → Bool) (f : α → ℚ) (l : List α) :
    ((sortBy le l).map f).sum = (l.map f).sum :=
  ((sortBy_perm le l).map f).sum_eq

theorem catRowsFinal_valorTotal (df : DF) (ccat cval : String) :
    (Controller.catRowsFinal df ccat cval).map (·.valorTotal)
      = (sortBy (Controller.porValorDesc Controller.CatRow.valorTotal)
          (Controller.catRowsBase df ccat cval)).map (·.valorTotal) := by
  simp only [Controller.catRowsFinal]
  rw [List.map_map]
  rfl

theorem catRowsFinal_pct (df : DF) (ccat cval : String) :
    (Controller.catRowsFinal df ccat cval).map (·.porcentagem)
      = ((sortBy (Controller.porValorDesc Controller.CatRow.valorTotal)
            (Controller.catRowsBase df ccat cval)).map (·.valorTotal)).map
          (fun v => round2 (v / ((sortBy (Controller.porValorDesc
              Controller.CatRow.valorTotal)
            (Controller.catRowsBase df ccat cval)).map (·.valorTotal)).sum * 100)) := by
  simp only [Controller.catRowsFinal]
  rw [List.map_map, List.map_map]
  rfl

theorem catRowsBase_valorTotal (df : DF) (ccat cval : String) :
    (Controller.catRowsBase df ccat cval).map (·.valorTotal)
      = (df.getCol ccat).dedup.map
          (fun k => numSum (Controller.selBy (df.getCol ccat) k (df.getCol cval))) := by
  simp only [Controller.catRowsBase]
  rw [List.map_map]
  rfl

/-- C1 (amended): for the by-category analysis — the one of the two
whose polars aggregation is well-formed — the sum of the groups'
`valor_total` equals the sum of the value column of the whole input
table (exactly, in the rational model of the float arithmetic), and
whenever the groups' grand total is nonzero the `porcentagem` column
sums to 100 up to the accumulated 2-decimal rounding error (at most
n × 0.005 for n groups).  The by-region half of the claim is about an
empty domain: `analisar_vendas_por_regiao` never succeeds on any
input (its broadcast-`select`/list-`agg` pipeline raises and the outer
`except` re-raises `RuntimeError`), so every call ends in an error. -/
theorem C1_conservacao_percentual :
    (∀ (df : DF) (colunaCategoria colunaValor : String) (res : Controller.CatResult),
        df.WF →
        Controller.analisarVendasPorCategoria df colunaCategoria colunaValor = .ok res →
        (res.categorias.map (·.valorTotal)).sum = numSum (df.getCol colunaValor)
          ∧ ((res.categorias.map (·.valorTotal)).sum ≠ 0 →
              |(res.categorias.map (·.porcentagem)).sum - 100|
                ≤ (res.categorias.length : ℚ) / 200))
    ∧ (∀ (df : DF) (colunaRegiao : Option String) (colunaValor : String), ∃ e,
        Controller.analisarVendasPorRegiao df colunaRegiao colunaValor
          = .error e) := by
  constructor
  · intro df ccat cval res hwf hok
    have hcc : ccat ∈ df.cols := by
      by_contra hno
      unfold Controller.analisarVendasPorCategoria at hok
      rw [if_pos hno] at hok
      exact Except.noConfusion hok
    have hcv : cval ∈ df.cols := by
      by_contra hno
      unfold Controller.analisarVendasPorCategoria at hok
      rw [if_neg (not_not.mpr hcc), if_pos hno] at hok
      exact Except.noConfusion hok
    have hres : res.categorias = Controller.catRowsFinal df ccat cval := by
      unfold Controller.analisarVendasPorCategoria at hok
      rw [if_neg (not_not.mpr hcc), if_neg (not_not.mpr hcv)] at hok
      rw [← Except.ok.inj hok]
    have hlen : (df.getCol ccat).length = (df.getCol cval).length := by
      rw [getCol_length_of_WF hwf hcc, getCol_length_of_WF hwf hcv]
    have hval : (res.categorias.map (·.valorTotal)).sum = numSum (df.getCol cval) := by
      rw [hres, catRowsFinal_valorTotal, sortBy_map_sum, catRowsBase_valorTotal]
      exact conservation_core _ _ hlen
    refine ⟨hval, ?_⟩
    intro hT
    rw [hres] at hT ⊢
    rw [catRowsFinal_valorTotal] at hT
    rw [catRowsFinal_pct]
    have hlen2 : (Controller.catRowsFinal df ccat cval).length
        = ((sortBy (Controller.porValorDesc Controller.CatRow.valorTotal)
            (Controller.catRowsBase df ccat cval)).map (·.valorTotal)).length := by
      simp only [Controller.catRowsFinal]
      rw [List.length_map, List.length_map]
    rw [hlen2]
    exact pct_sum_bound _ hT
  · intro df colunaRegiao cval
    unfold Controller.analisarVendasPorRegiao
    cases hesc : Controller.colunaRegiaoEscolhida df colunaRegiao with
    | none => exact ⟨.colunaRegiaoNaoDetectada, rfl⟩
    | some creg =>
      show ∃ e, (if creg ∉ df.cols
          then Except.error (Controller.AnaliseErro.colunaNaoEncontrada creg)
          else if cval ∉ df.cols
            then Except.error (Controller.AnaliseErro.colunaNaoEncontrada cval)
            else Except.error Controller.AnaliseErro.erroExecucao)
        = Except.error e
      by_cases h1 : creg ∉ df.cols
      · exact ⟨_, by rw [if_pos h1]⟩
      by_cases h2 : cval ∉ df.cols
      · exact ⟨_, by rw [if_neg h1, if_pos h2]⟩
      · exact ⟨_, by rw [if_neg h1, if_neg h2]⟩


/-- C1 counterexample to the claim as stated: on a zero-row table (with
the category and value columns present) the by-category analysis
succeeds with zero groups, the valor_total sums agree (0 = 0), but the
porcentagem column sums to 0 — not approximately 100 under any
rounding-error reading (it is off by 100). -/
theorem C1_contraexemplo :
    ∃ res, Controller.analisarVendasPorCategoria dfVazia "product_category"
        "total_value" = .ok res
      ∧ (res.categorias.map (·.valorTotal)).sum
          = numSum (dfVazia.getCol "total_value")
      ∧ (res.categorias.map (·.porcentagem)).sum = 0
      ∧ ¬ |(res.categorias.map (·.porcentagem)).sum - 100| ≤ 1 := by
  refine ⟨{ categorias := [], subcategorias := none }, rfl, rfl, rfl, ?_⟩
  norm_num

/-- C1 witness: a three-row, two-category table conserves the value sum
and its percentages sum to 100 within the rounding bound. -/
theorem C1_conservacao_percentual_witness :
    ∃ res, Controller.analisarVendasPorCategoria dfCat "product_category"
        "total_value" = .ok res
      ∧ (res.categorias.map (·.valorTotal)).sum = numSum (dfCat.getCol "total_value")
      ∧ |(res.categorias.map (·.porcentagem)).sum - 100|
          ≤ (res.categorias.length : ℚ) / 200 := by
  have h := C1_conservacao_percentual.1 dfCat "product_category" "total_value" _
    (by decide) rfl
  refine ⟨_, rfl, h.1, h.2 ?_⟩
  rw [h.1]
  rw [show dfCat.getCol "total_value"
      = [CVal.num 10, CVal.num 30, CVal.num 20] from rfl]
  norm_num [numSum, asNum, List.filterMap_cons, List.filterMap_nil]

end Ecom
